import Mathlib

/-!
# The Objective-C bridge `ObjC::Proxy` (src/binding/Proxy.cc)

A shallow embedding of `Proxy::New`, `Proxy::Type`, `Proxy::IsNil`, `Proxy::Methods` and
`Proxy::Call`, followed by the properties of the specification that are checked against it.

Conventions of the embedding:

* native pointers (`id`, `Class`, `void*`) are natural numbers, `0` being `nil`/`NULL`;
* C integers are mathematical integers reduced explicitly (`wrapSigned`, `wrapUnsigned`);
* a host (V8) value is given by what the bridge can read from it when the call starts:
  primitives, arrays and objects, an object carrying its internal field and the two properties
  the bridge reads (`__ptr`, `ref`); nothing is written before the native invocation, so the
  reading is the same through every reference to an object;
* host objects are shared: what the bridge writes after the invocation is kept as the sequence
  of the property writes `args[j]->ToObject()->Set(...)` it performs, by position `j`, and
  which positions hold the same host object is a parameter of the properties about them;
* the Objective-C runtime, the host engine's coercions and the `Invocation` frame are
  collaborators outside of Proxy.cc: they are fields of `Runtime`, or parameters.
-/

namespace ObjC

/-! ## Native side -/

/-- A native pointer (`id`, `Class`); `0` is `nil`. -/
abbrev Id := Nat

/-- Modelled from the spec: `enum Type` of Proxy.h, which is not part of the sources; the two
kinds of handle, with the discriminators `0 = Class`, `1 = Instance` (Proxy.cc itself builds
instance handles with the number `1`, in `CreateNewObjCWrapperFrom`). -/
inductive ProxyType
  | klass
  | instance_
  deriving DecidableEq, Repr

/-- The value of `static_cast<int>(type_)`. -/
def ProxyType.toInt : ProxyType → Int
  | .klass => 0
  | .instance_ => 1

/-- The native object `ObjC::Proxy`: `Proxy(enum Type type, id obj) : type_(type), obj_(obj)`. -/
structure Proxy where
  type_ : ProxyType
  obj_ : Id
  deriving DecidableEq, Repr

/-! ## Host values -/

/-- A host number, an IEEE double: integer valued, finite with a fractional part (`t` is its
integer part, rounded toward zero, `k` tells the fractional parts apart), NaN or infinite. -/
inductive JSNumber
  | int (x : Int)
  | frac (t : Int) (k : Nat)
  | nan
  | inf (negative : Bool)
  deriving DecidableEq, Repr

/-- Internal field 0 of a host object: nothing, the `ObjC::Proxy` stored there by
`ObjectWrap::Wrap`, or the aligned pointer to an `AlignedObjectWrapper` holding `object`. -/
inductive InternalField
  | empty
  | proxy (p : Proxy)
  | aligned (object : Id)
  deriving DecidableEq, Repr

/-- A host value. Arrays and objects carry the properties `__ptr` and `ref`. -/
inductive Value
  | undefined
  | null
  | boolean (b : Bool)
  | number (n : JSNumber)
  | string (s : String)
  | array (elems : List Value) (ptr ref : Value)
  | object (field : InternalField) (ptr ref : Value)
  deriving Repr

namespace Value

def IsUndefined : Value → Bool
  | undefined => true
  | _ => false

def IsNull : Value → Bool
  | null => true
  | _ => false

def IsString : Value → Bool
  | string _ => true
  | _ => false

def IsNumber : Value → Bool
  | number _ => true
  | _ => false

def IsBoolean : Value → Bool
  | boolean _ => true
  | _ => false

def IsArray : Value → Bool
  | array _ _ _ => true
  | _ => false

/-- Arrays are objects too. -/
def IsObject : Value → Bool
  | array _ _ _ => true
  | object _ _ _ => true
  | _ => false

/-- The value of `v->ToObject()->Get(__ptr_key)`; a primitive has no such property. -/
def getPtr : Value → Value
  | array _ p _ => p
  | object _ p _ => p
  | _ => undefined

/-- The result of `v->ToBoolean()->Value()`. -/
def ToBoolean : Value → Bool
  | undefined => false
  | null => false
  | boolean b => b
  | number (.int x) => x ≠ 0
  | number (.frac _ _) => true
  | number .nan => false
  | number (.inf _) => true
  | string s => s ≠ ""
  | array _ _ _ => true
  | object _ _ _ => true

end Value

/-- Modelled from the spec: `ObjectWrap::Unwrap<Proxy>` of node, applied to `v->ToObject()`;
the proxy stored in the internal field, and a null handle for a host object that was not
produced by wrapping. -/
def Unwrap : Value → Option Proxy
  | .object (.proxy p) _ _ => some p
  | _ => none

/-! ## Machine integers -/

/-- The integer `x` reduced to an unsigned integer of `w` bits. -/
def wrapUnsigned (w : Nat) (x : Int) : Int := x % 2 ^ w

/-- The integer `x` reduced to a two's complement signed integer of `w` bits. -/
def wrapSigned (w : Nat) (x : Int) : Int := (x + 2 ^ (w - 1)) % 2 ^ w - 2 ^ (w - 1)

/-- The host conversion ToInt32 (`ToInt32()->Value()`, `Int32Value()`). -/
def ToInt32 : JSNumber → Int
  | .int x => wrapSigned 32 x
  | .frac t _ => wrapSigned 32 t
  | .nan => 0
  | .inf _ => 0

/-! ## Collaborators -/

/-- Modelled from the spec: the method descriptor resolved by the runtime (`Method`), seen
through `method_copyArgumentType` and `method_copyReturnType`. -/
structure Method where
  argumentType : Nat → String
  returnType : String

/-- What an `id` built or found by the argument conversion refers to. -/
inductive NativeObject
  | ptr (p : Id)
  | mallocCell
  | stringWithUTF8String (s : String)
  | numberWithDouble (n : JSNumber)
  | numberWithBool (b : Bool)
  | mutableArray (objects : List NativeObject)
  deriving Repr

/-- The `nil` object. -/
def NativeObject.nil : NativeObject := .ptr 0

/-- A typed write into an argument slot of the call frame, by the C type of the variable
whose address is passed to `SetArgumentAtIndex`; a `float` is given by the double it was
narrowed from. -/
inductive NativeArg
  | nilArgument
  | object (o : NativeObject)
  | cls (c : Id)
  | int (v : Int)
  | longLong (v : Int)
  | unsignedInt (v : Int)
  | unsignedLong (v : Int)
  | unsignedLongLong (v : Int)
  | float (n : JSNumber)
  | double (n : JSNumber)
  | bool (b : Bool)
  | sel (name : String)
  deriving Repr

/-- Modelled from the spec: the call frame `ObjC::Invocation` (Invocation.h is not part of the
sources): target, selector and the typed writes into positional slots, latest first. -/
structure Invocation where
  target : Id
  selector : String
  arguments : List (Nat × NativeArg)

/-- The frame after `SetArgumentAtIndex(&value, index)`. -/
def Invocation.SetArgumentAtIndex (inv : Invocation) (value : NativeArg) (index : Nat) :
    Invocation :=
  { inv with arguments := (index, value) :: inv.arguments }

/-- The latest write into slot `index`, if there is one. -/
def Invocation.slot (inv : Invocation) (index : Nat) : Option NativeArg :=
  (inv.arguments.find? (fun e => e.1 == index)).map Prod.snd

/-- How `invocation.Invoke()` ends: the native side raises (an Objective-C exception with its
name and reason, or another C++ exception), or the call completes, leaving for each argument
index the object its slot points to and the raw bits of the return slot. -/
inductive InvokeOutcome
  | raised (exc : Option (String × String))
  | completed (pointee : Nat → Id) (returnBits : Nat)

/-- Modelled from the spec: the native reflection collaborator and the host engine, as far as
Proxy.cc calls them. Besides the functions of the Objective-C runtime named as in the source:
`classForCoder` is the message of that name, `ValueToChar` the helper of utils.h,
`coerceToNumber` the host conversion to a number of a value that is neither a number nor a
boolean, `longLongOutOfRange` the result of the cast `(long long)` of a double outside of the
64 bit range, `floatOfBits`, `doubleOfBits` and `cStringAt` the readings of a return slot as
`float`, `double` and `char*`, `boolIsSignedChar` whether the platform defines `BOOL` as
`signed char`, and `operatorNew` the address `new AlignedObjectWrapper(obj)` returns, which
is aligned for a structure holding a pointer. -/
structure Runtime where
  objc_getClass : String → Id
  object_getClass : Id → Id
  class_getSuperclass : Id → Id
  class_getName : Id → String
  class_copyMethodList : Id → List String
  class_getClassMethod : Id → String → Method
  class_getInstanceMethod : Id → String → Method
  classForCoder : Id → Id
  ValueToChar : Value → String
  coerceToNumber : Value → JSNumber
  longLongOutOfRange : JSNumber → Int
  floatOfBits : Nat → JSNumber
  doubleOfBits : Nat → JSNumber
  cStringAt : Nat → String
  boolIsSignedChar : Bool
  operatorNew : Id → Nat
  operatorNew_aligned : ∀ o, 2 ∣ operatorNew o

/-- Modelled from the spec: the macro `EQUAL` of utils.h, which is not part of the sources;
the comparison of two type tags, equality of the strings. -/
def EQUAL (s1 s2 : String) : Bool := s1 == s2

/-- The result of `v->ToNumber()`: a number is itself, a boolean is 0 or 1, the other
coercions are the host engine's. -/
def ToNumber (rt : Runtime) : Value → JSNumber
  | .number n => n
  | .boolean b => .int (if b then 1 else 0)
  | v => rt.coerceToNumber v

/-- The cast `(long long)` of a double: the integer part when it fits 64 bits; what the
platform gives otherwise. -/
def castLongLong (rt : Runtime) (n : JSNumber) : Int :=
  match n with
  | .int x => if -2 ^ 63 ≤ x ∧ x < 2 ^ 63 then x else rt.longLongOutOfRange n
  | .frac t _ => if -2 ^ 63 ≤ t ∧ t < 2 ^ 63 then t else rt.longLongOutOfRange n
  | _ => rt.longLongOutOfRange n

/-! ## Handles: `Proxy::New`, `Proxy::Type`, `Proxy::IsNil` -/

/-- How a call of the constructor ends: a host error was thrown and nothing was wrapped, or
`args.This()` was wrapped around a new `Proxy` and returned. -/
inductive NewResult
  | threw (message : String)
  | constructed (handle : Value)
  deriving Repr

/-- The body of `Proxy::New` on `args[0]`, `args[1]`. `none` stands for the runs the source
leaves undefined: a discriminator that is no case of the `switch` (`object` is never
assigned), or an instance argument without an `AlignedObjectWrapper` in internal field 0. -/
def New (rt : Runtime) (args0 args1 : Value) : Option NewResult :=
  let type := ToInt32 (ToNumber rt args0)
  if type = ProxyType.klass.toInt then
    let classname := rt.ValueToChar args1
    let object := rt.objc_getClass classname
    if object = 0 then
      some (.threw ("Error: Class with name '" ++ classname ++ "' doesn't exist"))
    else
      some (.constructed (.object (.proxy ⟨.klass, object⟩) .undefined .undefined))
  else if type = ProxyType.instance_.toInt then
    match args1 with
    | .object (.aligned object) _ _ =>
      some (.constructed (.object (.proxy ⟨.instance_, object⟩) .undefined .undefined))
    | _ => none
  else none

/-- The body of `Proxy::Type` on `args.This()`: the discriminator as an integer. -/
def Type_ (handle : Value) : Option Int :=
  (Unwrap handle).map (fun obj => obj.type_.toInt)

/-- The body of `Proxy::IsNil` on `args.This()`. -/
def IsNil (handle : Value) : Option Bool :=
  (Unwrap handle).map (fun obj => obj.obj_ == 0)

/-! ## `Proxy::Call` -/

/-- The result of `std::align(alignment, size, ptr, space)`: the first address from `ptr` on
that is a multiple of `alignment`, when `size` bytes still fit the `space` behind it. -/
def stdAlign (alignment size ptr space : Nat) : Option Nat :=
  if space < size then none
  else
    let aligned := (ptr + (alignment - 1)) / alignment * alignment
    if aligned - ptr > space - size then none else some aligned

/-- The value of `sizeof(p)` for a pointer `p`. -/
def sizeofPointer : Nat := 8

/-- The lambda `CreateNewObjCWrapperFrom`: the host object returned, and the host errors
thrown on the way. -/
def CreateNewObjCWrapperFrom (rt : Runtime) (obj : Id) : Value × List String :=
  let p := rt.operatorNew obj
  match stdAlign 2 sizeofPointer p sizeofPointer with
  | none => (.undefined, ["Internal Error: Unable to align pointer"])
  | some _ =>
    let object := Value.object (.aligned obj) .undefined .undefined
    match New rt (.number (.int 1)) object with
    | some (.constructed handle) => (handle, [])
    | some (.threw message) => (.undefined, [message])
    | none => (.undefined, [])

/-- The text thrown by the macro `ARGTYPE_NOT_SUPPORTED(type)`. -/
def ARGTYPE_NOT_SUPPORTED (type : String) : String :=
  "Error setting argument: Type '" ++ type ++ "' not yet supported. Sorry."

/-- The effect of `std::set<T>::insert` on the ascending sequence of the elements of the set,
for the ordering `lt`. -/
def setInsert {α : Type} (lt : α → α → Bool) (a : α) : List α → List α
  | [] => [a]
  | b :: l =>
    if lt a b then a :: b :: l
    else if lt b a then b :: setInsert lt a l
    else b :: l

/-- The ordering of `std::set<int>`. -/
def intLess (a b : Nat) : Bool := decide (a < b)

mutual
/-- The lambda `convertJavaScriptObjectToCorrespondingObjCType`. `Proxy::Call` passes the
tags `@` and `^@` only; for a host object and another tag `wrappedObject` is never assigned,
and the model gives nil as for a host object that wraps no proxy. -/
def convertJavaScriptObjectToCorrespondingObjCType (rt : Runtime) :
    Value → String → NativeObject
  | .object _ ptr ref, expectedType =>
    if EQUAL expectedType "@" then
      match Unwrap ptr with
      | some passedProxy => .ptr passedProxy.obj_
      | none => NativeObject.nil
    else if EQUAL expectedType "^@" then
      if ref.IsUndefined || ref.IsNull then .mallocCell
      else
        match Unwrap ref.getPtr with
        | some passedProxy => .ptr passedProxy.obj_
        | none => NativeObject.nil
    else NativeObject.nil
  | .string s, _ => .stringWithUTF8String (rt.ValueToChar (.string s))
  | .number n, _ => .numberWithDouble n
  | .boolean b, _ => .numberWithBool b
  | .array elems _ _, _ => .mutableArray (convertElements rt elems)
  | .undefined, _ => NativeObject.nil
  | .null, _ => NativeObject.nil
/-- The loop over the elements of a host array, each converted as an object (`"@"`). -/
def convertElements (rt : Runtime) : List Value → List NativeObject
  | [] => []
  | v :: vs => convertJavaScriptObjectToCorrespondingObjCType rt v "@" :: convertElements rt vs
end

/-- The state of the argument loop: the frame and the set `inoutArgs`. -/
structure BindState where
  invocation : Invocation
  inoutArgs : List Nat

/-- One turn of the argument loop of `Proxy::Call`, for the host argument `arg` at position
`i`: the new state, or the text of the host error thrown before `return`. -/
def bindArgument (rt : Runtime) (method : Method) (i : Nat) (arg : Value) (st : BindState) :
    Except String BindState :=
  let objcArgumentIndex := i + 1
  let expectedType := method.argumentType objcArgumentIndex
  if arg.IsNull || arg.IsUndefined then
    .ok { st with invocation := st.invocation.SetArgumentAtIndex .nilArgument objcArgumentIndex }
  else
    let inoutArgs :=
      if EQUAL expectedType "^@" then setInsert intLess objcArgumentIndex st.inoutArgs
      else st.inoutArgs
    let invocation := st.invocation
    if EQUAL expectedType "@" || EQUAL expectedType "^@" then
      let object := convertJavaScriptObjectToCorrespondingObjCType rt arg expectedType
      .ok ⟨invocation.SetArgumentAtIndex (.object object) objcArgumentIndex, inoutArgs⟩
    else if EQUAL expectedType "#" then
      if arg.IsString then
        let cls := rt.objc_getClass (rt.ValueToChar arg)
        .ok ⟨invocation.SetArgumentAtIndex (.cls cls) objcArgumentIndex, inoutArgs⟩
      else if arg.IsObject then
        match Unwrap arg.getPtr with
        | some passedClassProxy =>
          if passedClassProxy.type_ = .klass then
            .ok ⟨invocation.SetArgumentAtIndex (.cls passedClassProxy.obj_) objcArgumentIndex,
              inoutArgs⟩
          else .ok ⟨invocation, inoutArgs⟩
        | none => .ok ⟨invocation, inoutArgs⟩
      else .ok ⟨invocation, inoutArgs⟩
    else if EQUAL expectedType "@?" then .error (ARGTYPE_NOT_SUPPORTED "Block")
    else if EQUAL expectedType "c" then .error (ARGTYPE_NOT_SUPPORTED "char")
    else if EQUAL expectedType "i" then
      .ok ⟨invocation.SetArgumentAtIndex (.int (ToInt32 (ToNumber rt arg))) objcArgumentIndex,
        inoutArgs⟩
    else if EQUAL expectedType "s" then .error (ARGTYPE_NOT_SUPPORTED "short")
    else if EQUAL expectedType "q" then
      .ok ⟨invocation.SetArgumentAtIndex (.longLong (castLongLong rt (ToNumber rt arg)))
        objcArgumentIndex, inoutArgs⟩
    else if EQUAL expectedType "C" then .error (ARGTYPE_NOT_SUPPORTED "unsigned char")
    else if EQUAL expectedType "I" then
      .ok ⟨invocation.SetArgumentAtIndex
        (.unsignedInt (wrapUnsigned 32 (ToInt32 (ToNumber rt arg)))) objcArgumentIndex,
        inoutArgs⟩
    else if EQUAL expectedType "S" then .error (ARGTYPE_NOT_SUPPORTED "unsigned short")
    else if EQUAL expectedType "L" then
      .ok ⟨invocation.SetArgumentAtIndex
        (.unsignedLong (wrapUnsigned 64 (ToInt32 (ToNumber rt arg)))) objcArgumentIndex,
        inoutArgs⟩
    else if EQUAL expectedType "Q" then
      .ok ⟨invocation.SetArgumentAtIndex
        (.unsignedLongLong (wrapUnsigned 64 (ToInt32 (ToNumber rt arg)))) objcArgumentIndex,
        inoutArgs⟩
    else if EQUAL expectedType "f" then
      .ok ⟨invocation.SetArgumentAtIndex (.float (ToNumber rt arg)) objcArgumentIndex,
        inoutArgs⟩
    else if EQUAL expectedType "d" then
      .ok ⟨invocation.SetArgumentAtIndex (.double (ToNumber rt arg)) objcArgumentIndex,
        inoutArgs⟩
    else if EQUAL expectedType "B" then
      .ok ⟨invocation.SetArgumentAtIndex (.bool arg.ToBoolean) objcArgumentIndex, inoutArgs⟩
    else if EQUAL expectedType "v" then .error (ARGTYPE_NOT_SUPPORTED "void")
    else if EQUAL expectedType "*" || EQUAL expectedType "r*" then
      .error (ARGTYPE_NOT_SUPPORTED "char*")
    else if EQUAL expectedType ":" then
      .ok ⟨invocation.SetArgumentAtIndex (.sel (rt.ValueToChar arg)) objcArgumentIndex,
        inoutArgs⟩
    else if EQUAL expectedType "^v" || EQUAL expectedType "r^v" then
      .error (ARGTYPE_NOT_SUPPORTED "void*")
    else .ok ⟨invocation, inoutArgs⟩

/-- The argument loop `for (int i = 1; i < args.Length(); ++i)`, from position `i` on, over
the host arguments `args[i], args[i+1], ...` still to bind. -/
def bindArguments (rt : Runtime) (method : Method) :
    Nat → List Value → BindState → Except String BindState
  | _, [], st => .ok st
  | i, arg :: rest, st =>
    match bindArgument rt method i arg st with
    | .error message => .error message
    | .ok st1 => bindArguments rt method (i + 1) rest st1

/-- The loop over `inoutArgs` after the invocation, over the recorded indices in ascending
order: the property writes performed so far and the host errors thrown so far, each turn
adding the write `args[javaScriptArgumentIndex]->ToObject()->Set(__ref_key, value)` as the
pair of the position and the value. -/
def handleInoutArgs (rt : Runtime) (pointee : Nat → Id) :
    List Nat → List (Nat × Value) × List String → List (Nat × Value) × List String
  | [], acc => acc
  | objcArgumentIndex :: rest, (writes, thrown) =>
    let javaScriptArgumentIndex := objcArgumentIndex - 1
    let unwrappedArg := pointee objcArgumentIndex
    if unwrappedArg ≠ 0 then
      let wrappedValue := CreateNewObjCWrapperFrom rt unwrappedArg
      handleInoutArgs rt pointee rest
        (writes ++ [(javaScriptArgumentIndex, wrappedValue.1)], thrown ++ wrappedValue.2)
    else
      handleInoutArgs rt pointee rest
        (writes ++ [(javaScriptArgumentIndex, .undefined)], thrown)

/-- The dispatch on `returnType` at the end of `Proxy::Call`, on the raw bits of the return
slot: the host value set as return value and the host errors thrown. A `char`, `short`,
`unsigned char` or `unsigned short` is promoted to `int` and set as a 32 bit integer; `BOOL`
is a `signed char` or a `bool`, as the platform has it. -/
def handleReturnValue (rt : Runtime) (returnType : String) (bits : Nat) :
    Value × List String :=
  if EQUAL returnType "@" then CreateNewObjCWrapperFrom rt bits
  else if EQUAL returnType "c" then (.number (.int (wrapSigned 8 bits)), [])
  else if EQUAL returnType "i" then (.number (.int (wrapSigned 32 bits)), [])
  else if EQUAL returnType "s" then (.number (.int (wrapSigned 16 bits)), [])
  else if EQUAL returnType "q" then (.number (.int (wrapSigned 32 (wrapSigned 64 bits))), [])
  else if EQUAL returnType "C" then (.number (.int (wrapUnsigned 8 bits)), [])
  else if EQUAL returnType "I" then (.number (.int (wrapUnsigned 32 bits)), [])
  else if EQUAL returnType "S" then (.number (.int (wrapUnsigned 16 bits)), [])
  else if EQUAL returnType "L" then (.number (.int (wrapSigned 32 (wrapUnsigned 64 bits))), [])
  else if EQUAL returnType "Q" then (.number (.int (wrapSigned 32 (wrapUnsigned 64 bits))), [])
  else if EQUAL returnType "f" then (.number (rt.floatOfBits bits), [])
  else if EQUAL returnType "d" then (.number (rt.doubleOfBits bits), [])
  else if EQUAL returnType "B" then
    if rt.boolIsSignedChar then (.number (.int (wrapSigned 8 bits)), [])
    else (.boolean (decide (wrapUnsigned 8 bits ≠ 0)), [])
  else if EQUAL returnType "v" then (.undefined, [])
  else if EQUAL returnType "*" || EQUAL returnType "r*" then (.string (rt.cStringAt bits), [])
  else if EQUAL returnType "#" then (.undefined, [])
  else if EQUAL returnType ":" then (.undefined, [])
  else (.undefined, [])

/-- What a call of `Proxy::Call` leaves behind: the value in `args.GetReturnValue()`
(`undefined` when never set), the host errors thrown, the writes of the property `ref` it
performed on its host arguments, in order, each as the position of the argument and the value
set, and whether `invocation.Invoke()` was executed. -/
structure CallResult where
  returnValue : Value
  thrown : List String
  refWrites : List (Nat × Value)
  invoked : Bool

/-- The selector of a call: `sel_getUid(ValueToChar(isolate, args[0]))`. -/
def selectorOf (rt : Runtime) (args : List Value) : String :=
  rt.ValueToChar (args.getD 0 .undefined)

/-- The method descriptor a call resolves: the `switch (obj->type_)` of `Proxy::Call`. -/
def resolveMethod (rt : Runtime) (obj : Proxy) (sel : String) : Method :=
  match obj.type_ with
  | .klass => rt.class_getClassMethod obj.obj_ sel
  | .instance_ => rt.class_getInstanceMethod (rt.object_getClass obj.obj_) sel

/-- The method `Proxy::Call` on the unwrapped receiver `obj` and the host values `args`
(`args[0]` is the method name); `Invoke` is the native invocation of a bound frame. -/
def Call (rt : Runtime) (Invoke : Invocation → InvokeOutcome) (obj : Proxy)
    (args : List Value) : CallResult :=
  let sel := selectorOf rt args
  let method := resolveMethod rt obj sel
  let invocation : Invocation := ⟨obj.obj_, sel, []⟩
  match bindArguments rt method 1 (args.drop 1) ⟨invocation, []⟩ with
  | .error message => ⟨.undefined, [message], [], false⟩
  | .ok st =>
    match Invoke st.invocation with
    | .raised exc =>
      ⟨.undefined, (exc.map (fun e => e.1 ++ " " ++ e.2)).toList, [], true⟩
    | .completed pointee returnBits =>
      let written := handleInoutArgs rt pointee st.inoutArgs ([], [])
      let returned := handleReturnValue rt method.returnType returnBits
      ⟨returned.1, written.2 ++ returned.2, written.1, true⟩

/-! ## `Proxy::Methods` -/

/-- The ordering of `std::set<std::string>`: `std::string::operator<`, lexicographic. -/
def stringLess (a b : String) : Bool := decide (a.toList < b.toList)

/-- The inner loop of `getMethodsOfClass`: every name of a method list is inserted into the
set `methods`. -/
def insertMethodNames : List String → List String → List String
  | [], methods => methods
  | m :: rest, methods => insertMethodNames rest (setInsert stringLess m methods)

/-- The lambda `getMethodsOfClass`, its `do ... while ((cls = class_getSuperclass(cls)))`
loop run for at most `fuel` classes, from the set `methods` collected so far; `none` when
the fuel does not reach the end of the chain. -/
def getMethodsOfClass (rt : Runtime) : Nat → Id → List String → Option (List String)
  | 0, _, _ => none
  | fuel + 1, cls, methods =>
    let methods1 := insertMethodNames (rt.class_copyMethodList cls) methods
    let super := rt.class_getSuperclass cls
    if super ≠ 0 then getMethodsOfClass rt fuel super methods1 else some methods1

/-- A `std::map<string, vector<string>>`, seen through its lookups. -/
abbrev MethodMap := String → Option (List String)

/-- The lookup `map[key]` of `std::map`: the value found, or an empty vector that is inserted
for the key. -/
def MethodMap.index (m : MethodMap) (key : String) : List String × MethodMap :=
  match m key with
  | some v => (v, m)
  | none => ([], fun k => if k = key then some [] else m k)

/-- The assignment `map[key] = value`. -/
def MethodMap.assign (m : MethodMap) (key : String) (value : List String) : MethodMap :=
  fun k => if k = key then some value else m k

/-- The two caches `cachedClassMethods` and `cachedInstanceMethods`. -/
structure MethodCache where
  cachedClassMethods : MethodMap
  cachedInstanceMethods : MethodMap

/-- The class whose chain `Proxy::Methods` walks for the receiver `obj` and the method type
`methodType`. -/
def classToEnumerate (rt : Runtime) (obj : Proxy) (methodType : String) : Id :=
  let classOfObject :=
    match obj.type_ with
    | .klass => obj.obj_
    | .instance_ => rt.classForCoder obj.obj_
  if EQUAL methodType "class" then rt.object_getClass classOfObject else classOfObject

/-- The method `Proxy::Methods` on the unwrapped receiver `obj` and `args[0]`: the names put
into the host array, in order, and the caches after the call. -/
def Methods (rt : Runtime) (fuel : Nat) (cache : MethodCache) (obj : Proxy) (args0 : Value) :
    Option (List String × MethodCache) :=
  let methodType := rt.ValueToChar args0
  let cls := classToEnumerate rt obj methodType
  let classname := rt.class_getName cls
  if EQUAL methodType "class" then
    let looked := cache.cachedClassMethods.index classname
    if looked.1.length ≠ 0 then some (looked.1, { cache with cachedClassMethods := looked.2 })
    else
      match getMethodsOfClass rt fuel cls [] with
      | none => none
      | some methods =>
        some (methods, { cache with cachedClassMethods := looked.2.assign classname methods })
  else
    let looked := cache.cachedInstanceMethods.index classname
    if looked.1.length ≠ 0 then some (looked.1, { cache with cachedInstanceMethods := looked.2 })
    else
      match getMethodsOfClass rt fuel cls [] with
      | none => none
      | some methods =>
        some (methods, { cache with cachedInstanceMethods := looked.2.assign classname methods })

/-! ## Vocabulary of the properties -/

/-- The type the argument loop names in its error for an expected tag it rejects, `none` for
a tag it does not reject. -/
def rejectedTypeName (expectedType : String) : Option String :=
  if expectedType = "@?" then some "Block"
  else if expectedType = "c" then some "char"
  else if expectedType = "s" then some "short"
  else if expectedType = "C" then some "unsigned char"
  else if expectedType = "S" then some "unsigned short"
  else if expectedType = "v" then some "void"
  else if expectedType = "*" ∨ expectedType = "r*" then some "char*"
  else if expectedType = "^v" ∨ expectedType = "r^v" then some "void*"
  else none

/-- The first host argument, from position `i` on, that is neither null nor undefined and
whose expected tag the argument loop rejects: its position and the type named for it. -/
def firstRejected (method : Method) : Nat → List Value → Option (Nat × String)
  | _, [] => none
  | i, arg :: rest =>
    if arg.IsNull || arg.IsUndefined then firstRejected method (i + 1) rest
    else
      match rejectedTypeName (method.argumentType (i + 1)) with
      | some name => some (i, name)
      | none => firstRejected method (i + 1) rest

/-- The tags the specification lists as unsupported for an argument. -/
def unsupportedTags : List String := ["c", "s", "*", "r*", "^v", "r^v", "@?"]

/-- The tags the specification counts as supported with a slot. -/
def supportedSlotTags : List String :=
  ["@", "^@", "#", ":", "i", "q", "C", "S", "I", "Q", "L", "f", "d", "B"]

/-- The tags whose arguments the argument loop takes without an error. -/
def acceptedTags : List String :=
  ["@", "^@", "#", ":", "i", "q", "I", "Q", "L", "f", "d", "B"]

/-- The tags whose arguments the argument loop rejects with the error. -/
def rejectedTags : List String :=
  ["C", "S", "c", "s", "v", "*", "r*", "^v", "r^v", "@?"]

/-- The raw bits an integer argument occupies in its slot, in two's complement. -/
def NativeArg.bits : NativeArg → Option Nat
  | .int v => some (wrapUnsigned 32 v).toNat
  | .longLong v => some (wrapUnsigned 64 v).toNat
  | .unsignedInt v => some (wrapUnsigned 32 v).toNat
  | .unsignedLong v => some (wrapUnsigned 64 v).toNat
  | .unsignedLongLong v => some (wrapUnsigned 64 v).toNat
  | _ => none

/-- The round trip of the integer valued host number `x` through the tag `tag`: the argument
conversion of `Proxy::Call` for a parameter of that tag, then the return conversion of the
same tag on the bits of the native value; `none` when the argument is not bound. -/
def roundTrip (rt : Runtime) (tag : String) (x : Int) : Option Value :=
  match bindArgument rt ⟨fun _ => tag, tag⟩ 1 (.number (.int x)) ⟨⟨0, "", []⟩, []⟩ with
  | .error _ => none
  | .ok st =>
    match st.invocation.slot 2 with
    | none => none
    | some a => a.bits.map (fun bits => (handleReturnValue rt tag bits).1)

/-- The narrowing the specification declares for the integer tags: signed 32 bits for `i`,
signed 64 bits for `q`, unsigned 32 bits for `I`, unsigned 64 bits for `L` and `Q`. -/
def declaredNarrowing (tag : String) (x : Int) : Int :=
  if tag = "i" then wrapSigned 32 x
  else if tag = "q" then wrapSigned 64 x
  else if tag = "I" then wrapUnsigned 32 x
  else wrapUnsigned 64 x

/-- The handle `CreateNewObjCWrapperFrom` builds around the native object `obj`: a new host
object wrapping a `Proxy` of kind instance. -/
def instanceHandle (obj : Id) : Value :=
  .object (.proxy ⟨.instance_, obj⟩) .undefined .undefined

/-- The state in which the argument loop of a call starts. -/
def initialState (rt : Runtime) (obj : Proxy) (args : List Value) : BindState :=
  ⟨⟨obj.obj_, selectorOf rt args, []⟩, []⟩

/-- The argument binding of a whole call: the loop of `Proxy::Call` over `args[1], ...`. -/
def bindCall (rt : Runtime) (obj : Proxy) (args : List Value) : Except String BindState :=
  bindArguments rt (resolveMethod rt obj (selectorOf rt args)) 1 (args.drop 1)
    (initialState rt obj args)

/-- The value the loop over `inoutArgs` writes onto the property `ref` for the in/out index
`k`: a handle on the object the slot points to after the call, `undefined` when that is nil. -/
def writtenBack (pointee : Nat → Id) (k : Nat) : Value :=
  if pointee k ≠ 0 then instanceHandle (pointee k) else .undefined

/-- The class `j` steps up the inheritance chain of `cls` (`cls` itself for `j = 0`), nil once
the chain has ended. -/
def ancestor (rt : Runtime) : Id → Nat → Id
  | cls, 0 => cls
  | cls, j + 1 => ancestor rt (rt.class_getSuperclass cls) j

/-- The caches of a process that has not listed any methods yet. -/
def emptyCache : MethodCache := ⟨fun _ => none, fun _ => none⟩

/-- The cache step of `Proxy::Methods` on one of the two maps: the vector found under `key`
when it is not empty, and otherwise the enumerated names, stored under `key`. -/
def lookupOrEnumerate (m : MethodMap) (key : String) (enumerated : Option (List String)) :
    Option (List String × MethodMap) :=
  if (m.index key).1.length ≠ 0 then some ((m.index key).1, (m.index key).2)
  else
    match enumerated with
    | none => none
    | some methods => some (methods, (m.index key).2.assign key methods)

/-- The names returned by the second of two successive calls of `Proxy::Methods` with the same
receiver and argument, the second one made in the runtime `rt1` with the fuel `fuel1`. -/
def secondMethods (rt rt1 : Runtime) (fuel fuel1 : Nat) (cache : MethodCache) (obj : Proxy)
    (args0 : Value) : Option (List String) :=
  (Methods rt fuel cache obj args0).bind
    (fun first => (Methods rt1 fuel1 first.2 obj args0).map Prod.fst)

/-- The native indices of the slots written by the binding of a call, latest first; `none`
when the binding stops with an error. -/
def boundSlots (rt : Runtime) (obj : Proxy) (args : List Value) : Option (List Nat) :=
  match bindCall rt obj args with
  | .ok st => some (st.invocation.arguments.map Prod.fst)
  | .error _ => none

/-- The supported set of the Type Encoding Table of the specification, `v` included. -/
def supportedTableTags : List String :=
  ["@", "^@", "#", ":", "i", "q", "C", "S", "I", "Q", "L", "f", "d", "B", "v"]

/-- The native 64 bit value a return slot holds for a 64 bit return tag: a `long long` for
`q`, an `unsigned long` or `unsigned long long` for `L` and `Q`. -/
def returnedInteger (tag : String) (bits : Nat) : Int :=
  if tag = "q" then wrapSigned 64 bits else wrapUnsigned 64 bits

/-- What the turn of the argument loop for the host argument `arg` at position `i` writes
into the slot `i + 1`, seen on an empty frame; `none` when it writes nothing. -/
def writtenSlot (rt : Runtime) (method : Method) (i : Nat) (arg : Value) : Option NativeArg :=
  match bindArgument rt method i arg ⟨⟨0, "", []⟩, []⟩ with
  | .ok st => st.invocation.slot (i + 1)
  | .error _ => none

/-- The typed write the binding of a call leaves in the slot `k` of the frame; `none` when
the slot is not written or the binding stops with an error. -/
def boundArgument (rt : Runtime) (obj : Proxy) (args : List Value) (k : Nat) :
    Option NativeArg :=
  match bindCall rt obj args with
  | .ok st => st.invocation.slot k
  | .error _ => none

/-- A method descriptor with the given tags for its declared parameters (native indices 2, 3,
...) and the given return tag. -/
def exampleMethod (argumentTypes : List String) (returnType : String) : Method :=
  ⟨fun index => argumentTypes.getD (index - 2) "", returnType⟩

/-- A runtime in which every selector resolves to `method`; the class `NSObject` is `1`, its
metaclass `2`, the class `NSString` is `3` with superclass `1`, and `4` is a root class
`Bare` without any method. -/
def exampleRuntime (method : Method) : Runtime where
  objc_getClass := fun name =>
    if name = "NSObject" then 1 else if name = "NSString" then 3
    else if name = "Bare" then 4 else 0
  object_getClass := fun o => if o = 1 then 2 else if o = 3 then 2 else 3
  class_getSuperclass := fun c => if c = 3 then 1 else if c = 2 then 1 else 0
  class_getName := fun c =>
    if c = 1 then "NSObject" else if c = 2 then "NSObject" else if c = 3 then "NSString"
    else if c = 4 then "Bare" else "nil"
  class_copyMethodList := fun c =>
    if c = 1 then ["init", "description", "hash"]
    else if c = 2 then ["new", "alloc"]
    else if c = 3 then ["length", "description", "characterAtIndex:"]
    else []
  class_getClassMethod := fun _ _ => method
  class_getInstanceMethod := fun _ _ => method
  classForCoder := fun _ => 3
  ValueToChar := fun v =>
    match v with
    | .string s => s
    | _ => ""
  coerceToNumber := fun _ => .nan
  longLongOutOfRange := fun _ => -2 ^ 63
  floatOfBits := fun b => .int b
  doubleOfBits := fun b => .int b
  cStringAt := fun _ => ""
  boolIsSignedChar := true
  operatorNew := fun o => 16 * (o + 1)
  operatorNew_aligned := fun o => ⟨8 * (o + 1), by ring⟩

/-- The runtime `exampleRuntime method` after the class `Bare` has gained a method `ping`. -/
def exampleRuntimeGrown (method : Method) : Runtime :=
  { exampleRuntime method with
    class_copyMethodList := fun c =>
      if c = 4 then ["ping"] else (exampleRuntime method).class_copyMethodList c }

/-- The caches after the instance methods of the class `NSString` of `exampleRuntime` have
been listed once, from the empty caches. -/
def exampleCache : MethodCache :=
  ⟨emptyCache.cachedClassMethods,
    (emptyCache.cachedInstanceMethods.index "NSString").2.assign "NSString"
      ["characterAtIndex:", "description", "hash", "init", "length"]⟩

/-- A native side that completes every call, writing the object `7` through every argument
slot and returning the bits `9`. -/
def exampleInvoke : Invocation → InvokeOutcome :=
  fun _ => .completed (fun _ => 7) 9

/-- A native side that raises an Objective-C exception on every call. -/
def exampleRaise : Invocation → InvokeOutcome :=
  fun _ => .raised (some ("NSRangeException", "index 3 beyond bounds"))

/-- An instance handle on the object `5`. -/
def exampleObject : Proxy := ⟨.instance_, 5⟩

/-! ## Argument binding -/

theorem bindArgument_nullish (rt : Runtime) (method : Method) (i : Nat) (arg : Value)
    (st : BindState) (h : (arg.IsNull || arg.IsUndefined) = true) :
    bindArgument rt method i arg st =
      .ok ⟨st.invocation.SetArgumentAtIndex .nilArgument (i + 1), st.inoutArgs⟩ := by
  simp only [bindArgument, h, if_true]

theorem rejectedTypeName_eq_some (t name : String) (h : rejectedTypeName t = some name) :
    (t = "@?" ∧ name = "Block") ∨ (t = "c" ∧ name = "char") ∨ (t = "s" ∧ name = "short") ∨
    (t = "C" ∧ name = "unsigned char") ∨ (t = "S" ∧ name = "unsigned short") ∨
    (t = "v" ∧ name = "void") ∨ (t = "*" ∧ name = "char*") ∨ (t = "r*" ∧ name = "char*") ∨
    (t = "^v" ∧ name = "void*") ∨ (t = "r^v" ∧ name = "void*") := by
  unfold rejectedTypeName at h
  split_ifs at h with h1 h2 h3 h4 h5 h6 h7 h8 <;> simp only [Option.some.injEq] at h <;>
    subst h
  · exact Or.inl ⟨h1, rfl⟩
  · exact Or.inr (Or.inl ⟨h2, rfl⟩)
  · exact Or.inr (Or.inr (Or.inl ⟨h3, rfl⟩))
  · exact Or.inr (Or.inr (Or.inr (Or.inl ⟨h4, rfl⟩)))
  · exact Or.inr (Or.inr (Or.inr (Or.inr (Or.inl ⟨h5, rfl⟩))))
  · exact Or.inr (Or.inr (Or.inr (Or.inr (Or.inr (Or.inl ⟨h6, rfl⟩)))))
  · rcases h7 with h7 | h7
    · exact Or.inr (Or.inr (Or.inr (Or.inr (Or.inr (Or.inr (Or.inl ⟨h7, rfl⟩))))))
    · exact Or.inr (Or.inr (Or.inr (Or.inr (Or.inr (Or.inr (Or.inr (Or.inl ⟨h7, rfl⟩)))))))
  · rcases h8 with h8 | h8
    · exact Or.inr (Or.inr (Or.inr (Or.inr (Or.inr (Or.inr (Or.inr (Or.inr
        (Or.inl ⟨h8, rfl⟩))))))))
    · exact Or.inr (Or.inr (Or.inr (Or.inr (Or.inr (Or.inr (Or.inr (Or.inr
        (Or.inr ⟨h8, rfl⟩))))))))

theorem rejectedTypeName_eq_none (t : String) (h : rejectedTypeName t = none) :
    t ≠ "@?" ∧ t ≠ "c" ∧ t ≠ "s" ∧ t ≠ "C" ∧ t ≠ "S" ∧ t ≠ "v" ∧ t ≠ "*" ∧ t ≠ "r*" ∧
    t ≠ "^v" ∧ t ≠ "r^v" := by
  unfold rejectedTypeName at h
  split_ifs at h with h1 h2 h3 h4 h5 h6 h7 h8
  exact ⟨h1, h2, h3, h4, h5, h6, fun e => h7 (Or.inl e), fun e => h7 (Or.inr e),
    fun e => h8 (Or.inl e), fun e => h8 (Or.inr e)⟩

theorem bindArgument_rejected (rt : Runtime) (method : Method) (i : Nat) (arg : Value)
    (st : BindState) (h : (arg.IsNull || arg.IsUndefined) = false) (name : String)
    (hn : rejectedTypeName (method.argumentType (i + 1)) = some name) :
    bindArgument rt method i arg st = .error (ARGTYPE_NOT_SUPPORTED name) := by
  rcases rejectedTypeName_eq_some _ _ hn with
    ⟨ht, hm⟩ | ⟨ht, hm⟩ | ⟨ht, hm⟩ | ⟨ht, hm⟩ | ⟨ht, hm⟩ | ⟨ht, hm⟩ | ⟨ht, hm⟩ | ⟨ht, hm⟩ |
    ⟨ht, hm⟩ | ⟨ht, hm⟩ <;>
  · subst hm
    simp [bindArgument, h, ht, EQUAL]

/-- The states an accepted argument can leave: the frame is as before or the slot `i + 1` is
written, and the index is recorded exactly for the tag `^@`. -/
theorem bindArgument_accepted (rt : Runtime) (method : Method) (i : Nat) (arg : Value)
    (st : BindState) (h : (arg.IsNull || arg.IsUndefined) = false)
    (hn : rejectedTypeName (method.argumentType (i + 1)) = none) :
    ∃ inv, bindArgument rt method i arg st =
      .ok ⟨inv, if method.argumentType (i + 1) = "^@" then
        setInsert intLess (i + 1) st.inoutArgs else st.inoutArgs⟩ ∧
      (inv = st.invocation ∨ ∃ v, inv = st.invocation.SetArgumentAtIndex v (i + 1)) := by
  obtain ⟨h1, h2, h3, h4, h5, h6, h7, h8, h9, h10⟩ := rejectedTypeName_eq_none _ hn
  unfold bindArgument
  simp only [h, EQUAL, beq_iff_eq, Bool.or_eq_true, h1, h2, h3, h4, h5, h6, h7, h8, h9, h10,
    if_false, or_self, Bool.false_eq_true]
  generalize method.argumentType (i + 1) = t
  clear h1 h2 h3 h4 h5 h6 h7 h8 h9 h10 hn
  generalize (if t = "^@" then setInsert intLess (i + 1) st.inoutArgs else st.inoutArgs) = io
  by_cases c1 : t = "@" ∨ t = "^@"
  · rw [if_pos c1]; exact ⟨_, rfl, Or.inr ⟨_, rfl⟩⟩
  rw [if_neg c1]
  by_cases c2 : t = "#"
  · rw [if_pos c2]
    by_cases c3 : arg.IsString = true
    · rw [if_pos c3]; exact ⟨_, rfl, Or.inr ⟨_, rfl⟩⟩
    rw [if_neg c3]
    by_cases c4 : arg.IsObject = true
    · rw [if_pos c4]
      cases Unwrap arg.getPtr with
      | none => exact ⟨_, rfl, Or.inl rfl⟩
      | some p =>
        by_cases c5 : p.type_ = ProxyType.klass
        · simp only [c5, if_true]; exact ⟨_, rfl, Or.inr ⟨_, rfl⟩⟩
        · simp only [c5, if_false]; exact ⟨_, rfl, Or.inl rfl⟩
    · rw [if_neg c4]; exact ⟨_, rfl, Or.inl rfl⟩
  rw [if_neg c2]
  clear c1 c2
  by_cases c : t = "i"
  · rw [if_pos c]; exact ⟨_, rfl, Or.inr ⟨_, rfl⟩⟩
  rw [if_neg c]; clear c
  by_cases c : t = "q"
  · rw [if_pos c]; exact ⟨_, rfl, Or.inr ⟨_, rfl⟩⟩
  rw [if_neg c]; clear c
  by_cases c : t = "I"
  · rw [if_pos c]; exact ⟨_, rfl, Or.inr ⟨_, rfl⟩⟩
  rw [if_neg c]; clear c
  by_cases c : t = "L"
  · rw [if_pos c]; exact ⟨_, rfl, Or.inr ⟨_, rfl⟩⟩
  rw [if_neg c]; clear c
  by_cases c : t = "Q"
  · rw [if_pos c]; exact ⟨_, rfl, Or.inr ⟨_, rfl⟩⟩
  rw [if_neg c]; clear c
  by_cases c : t = "f"
  · rw [if_pos c]; exact ⟨_, rfl, Or.inr ⟨_, rfl⟩⟩
  rw [if_neg c]; clear c
  by_cases c : t = "d"
  · rw [if_pos c]; exact ⟨_, rfl, Or.inr ⟨_, rfl⟩⟩
  rw [if_neg c]; clear c
  by_cases c : t = "B"
  · rw [if_pos c]; exact ⟨_, rfl, Or.inr ⟨_, rfl⟩⟩
  rw [if_neg c]; clear c
  by_cases c : t = ":"
  · rw [if_pos c]; exact ⟨_, rfl, Or.inr ⟨_, rfl⟩⟩
  rw [if_neg c]; exact ⟨_, rfl, Or.inl rfl⟩

theorem firstRejected_some (method : Method) (rest : List Value) :
    ∀ (i j : Nat) (name : String), firstRejected method i rest = some (j, name) →
      i ≤ j ∧ j < i + rest.length ∧
      ((rest.getD (j - i) .undefined).IsNull || (rest.getD (j - i) .undefined).IsUndefined)
        = false ∧
      rejectedTypeName (method.argumentType (j + 1)) = some name ∧
      ∀ k, i ≤ k → k < j →
        ((rest.getD (k - i) .undefined).IsNull || (rest.getD (k - i) .undefined).IsUndefined)
          = true ∨ rejectedTypeName (method.argumentType (k + 1)) = none := by
  induction rest with
  | nil => intro i j name h; simp [firstRejected] at h
  | cons arg rest ih =>
    intro i j name h
    simp only [firstRejected] at h
    by_cases hnull : (arg.IsNull || arg.IsUndefined) = true
    · rw [if_pos hnull] at h
      obtain ⟨h1, h2, h3, h4, h5⟩ := ih (i + 1) j name h
      have e : j - i = (j - (i + 1)) + 1 := by omega
      refine ⟨by omega, by simp only [List.length_cons]; omega, ?_, h4, ?_⟩
      · rw [e, List.getD_cons_succ]; exact h3
      · intro k hk1 hk2
        rcases Nat.eq_or_lt_of_le hk1 with hk | hk
        · subst hk; left; simpa using hnull
        · have e2 : k - i = (k - (i + 1)) + 1 := by omega
          rw [e2, List.getD_cons_succ]; exact h5 k hk hk2
    · rw [if_neg hnull] at h
      cases hr : rejectedTypeName (method.argumentType (i + 1)) with
      | some n =>
        rw [hr] at h
        simp only [Option.some.injEq, Prod.mk.injEq] at h
        obtain ⟨rfl, rfl⟩ := h
        refine ⟨le_refl _, by simp, ?_, hr, fun k hk1 hk2 => by omega⟩
        simpa using hnull
      | none =>
        rw [hr] at h
        obtain ⟨h1, h2, h3, h4, h5⟩ := ih (i + 1) j name h
        have e : j - i = (j - (i + 1)) + 1 := by omega
        refine ⟨by omega, by simp only [List.length_cons]; omega, ?_, h4, ?_⟩
        · rw [e, List.getD_cons_succ]; exact h3
        · intro k hk1 hk2
          rcases Nat.eq_or_lt_of_le hk1 with hk | hk
          · subst hk; right; exact hr
          · have e2 : k - i = (k - (i + 1)) + 1 := by omega
            rw [e2, List.getD_cons_succ]; exact h5 k hk hk2

theorem firstRejected_of_rejected (method : Method) (rest : List Value) :
    ∀ (i k : Nat), i ≤ k → k < i + rest.length →
      ((rest.getD (k - i) .undefined).IsNull || (rest.getD (k - i) .undefined).IsUndefined)
        = false →
      rejectedTypeName (method.argumentType (k + 1)) ≠ none →
      ∃ j name, firstRejected method i rest = some (j, name) ∧ j ≤ k := by
  induction rest with
  | nil => intro i k h1 h2; simp at h2; omega
  | cons arg rest ih =>
    intro i k h1 h2 h3 h4
    simp only [firstRejected]
    rcases Nat.eq_or_lt_of_le h1 with hk | hk
    · subst hk
      simp only [Nat.sub_self, List.getD_cons_zero] at h3
      rw [h3]
      cases hr : rejectedTypeName (method.argumentType (i + 1)) with
      | some n => exact ⟨i, n, by simp, le_refl _⟩
      | none => exact absurd hr h4
    · have e : k - i = (k - (i + 1)) + 1 := by omega
      rw [e, List.getD_cons_succ] at h3
      have h2' : k < i + 1 + rest.length := by simp only [List.length_cons] at h2; omega
      obtain ⟨j, name, hj, hjk⟩ := ih (i + 1) k hk h2' h3 h4
      by_cases hnull : (arg.IsNull || arg.IsUndefined) = true
      · rw [if_pos hnull]; exact ⟨j, name, hj, hjk⟩
      · rw [if_neg hnull]
        cases hr : rejectedTypeName (method.argumentType (i + 1)) with
        | some n => exact ⟨i, n, rfl, by omega⟩
        | none => exact ⟨j, name, hj, hjk⟩

theorem bindArguments_of_firstRejected (rt : Runtime) (method : Method) (rest : List Value) :
    ∀ (i : Nat) (st : BindState),
      match firstRejected method i rest with
      | some (_, name) =>
        bindArguments rt method i rest st = .error (ARGTYPE_NOT_SUPPORTED name)
      | none => ∃ st1, bindArguments rt method i rest st = .ok st1 := by
  induction rest with
  | nil => intro i st; exact ⟨st, rfl⟩
  | cons arg rest ih =>
    intro i st
    simp only [firstRejected, bindArguments]
    by_cases hnull : (arg.IsNull || arg.IsUndefined) = true
    · rw [if_pos hnull, bindArgument_nullish rt method i arg st hnull]
      exact ih (i + 1) _
    · rw [if_neg hnull]
      have hnull' : (arg.IsNull || arg.IsUndefined) = false := by simpa using hnull
      cases hr : rejectedTypeName (method.argumentType (i + 1)) with
      | some n =>
        simp only [bindArgument_rejected rt method i arg st hnull' n hr]
      | none =>
        obtain ⟨inv, hinv, _⟩ := bindArgument_accepted rt method i arg st hnull' hr
        simp only [hinv]
        exact ih (i + 1) _

theorem rejectedTypeName_of_unsupported (t : String) (h : t ∈ unsupportedTags) :
    rejectedTypeName t ≠ none := by
  simp only [unsupportedTags, List.mem_cons, List.mem_singleton, List.not_mem_nil, or_false] at h
  rcases h with h | h | h | h | h | h | h <;> subst h <;> decide

theorem getD_drop_one (args : List Value) (k i : Nat) (h : i ≤ k) :
    (args.drop i).getD (k - i) .undefined = args.getD k .undefined := by
  simp only [List.getD_eq_getElem?_getD, List.getElem?_drop]
  congr 2; omega

theorem rejectedTypeName_of_accepted (t : String) (h : t ∈ acceptedTags) :
    rejectedTypeName t = none := by
  simp only [acceptedTags, List.mem_cons, List.mem_singleton, List.not_mem_nil, or_false] at h
  rcases h with h | h | h | h | h | h | h | h | h | h | h | h <;> subst h <;> decide

theorem rejectedTypeName_of_rejected (t : String) (h : t ∈ rejectedTags) :
    ∃ name, rejectedTypeName t = some name := by
  simp only [rejectedTags, List.mem_cons, List.mem_singleton, List.not_mem_nil, or_false] at h
  rcases h with h | h | h | h | h | h | h | h | h | h <;> subst h <;> exact ⟨_, rfl⟩

theorem bindArgument_writes_slot (rt : Runtime) (method : Method) (i : Nat) (arg : Value)
    (st : BindState) (h : (arg.IsNull || arg.IsUndefined) = false)
    (ht : method.argumentType (i + 1) ∈ acceptedTags)
    (hc : method.argumentType (i + 1) ≠ "#") :
    ∃ v io, bindArgument rt method i arg st =
      .ok ⟨st.invocation.SetArgumentAtIndex v (i + 1), io⟩ := by
  simp only [acceptedTags, List.mem_cons, List.mem_singleton, List.not_mem_nil, or_false] at ht
  rcases ht with ht | ht | ht | ht | ht | ht | ht | ht | ht | ht | ht | ht
  · exact ⟨_, _, by simp [bindArgument, h, ht, EQUAL]; exact ⟨rfl, rfl⟩⟩
  · exact ⟨_, _, by simp [bindArgument, h, ht, EQUAL]; exact ⟨rfl, rfl⟩⟩
  · exact absurd ht hc
  all_goals exact ⟨_, _, by simp [bindArgument, h, ht, EQUAL]; exact ⟨rfl, rfl⟩⟩

theorem slot_SetArgumentAtIndex (inv : Invocation) (v : NativeArg) (k q : Nat) :
    (inv.SetArgumentAtIndex v k).slot q = if k = q then some v else inv.slot q := by
  by_cases h : k = q
  · simp [Invocation.slot, Invocation.SetArgumentAtIndex, List.find?_cons, h]
  · simp [Invocation.slot, Invocation.SetArgumentAtIndex, List.find?_cons, h]

/-- A completed binding from position `i` on writes no slot of index `i` or below. -/
theorem bindArguments_slot_below (rt : Runtime) (method : Method) (rest : List Value) :
    ∀ (i : Nat) (st st1 : BindState), bindArguments rt method i rest st = .ok st1 →
      ∀ q, q ≤ i → st1.invocation.slot q = st.invocation.slot q := by
  induction rest with
  | nil =>
    intro i st st1 h q _
    simp only [bindArguments, Except.ok.injEq] at h
    rw [h]
  | cons arg rest ih =>
    intro i st st1 h q hq
    simp only [bindArguments] at h
    by_cases hnull : (arg.IsNull || arg.IsUndefined) = true
    · rw [bindArgument_nullish rt method i arg st hnull] at h
      rw [ih (i + 1) _ st1 h q (by omega), slot_SetArgumentAtIndex, if_neg (by omega)]
    · have hnull' : (arg.IsNull || arg.IsUndefined) = false := by simpa using hnull
      cases hr : rejectedTypeName (method.argumentType (i + 1)) with
      | some n =>
        rw [bindArgument_rejected rt method i arg st hnull' n hr] at h
        simp at h
      | none =>
        obtain ⟨inv, hinv, hcase⟩ := bindArgument_accepted rt method i arg st hnull' hr
        rw [hinv] at h
        rw [ih (i + 1) _ st1 h q (by omega)]
        rcases hcase with hc | ⟨v, hc⟩
        · simp only [hc]
        · simp only [hc, slot_SetArgumentAtIndex, if_neg (show ¬ i + 1 = q by omega)]

/-- In a completed binding the slot of every null or undefined argument holds a null
pointer. -/
theorem bindArguments_slot_nullish (rt : Runtime) (method : Method) (rest : List Value) :
    ∀ (i : Nat) (st st1 : BindState), bindArguments rt method i rest st = .ok st1 →
      ∀ k, i ≤ k → k < i + rest.length →
        ((rest.getD (k - i) .undefined).IsNull || (rest.getD (k - i) .undefined).IsUndefined)
          = true →
        st1.invocation.slot (k + 1) = some .nilArgument := by
  induction rest with
  | nil => intro i st st1 _ k h1 h2; simp at h2; omega
  | cons arg rest ih =>
    intro i st st1 h k hk1 hk2 hk3
    simp only [bindArguments] at h
    rcases Nat.eq_or_lt_of_le hk1 with hk | hk
    · subst hk
      simp only [Nat.sub_self, List.getD_cons_zero] at hk3
      rw [bindArgument_nullish rt method i arg st hk3] at h
      rw [bindArguments_slot_below rt method rest (i + 1) _ st1 h (i + 1) (le_refl _),
        slot_SetArgumentAtIndex, if_pos rfl]
    · have e : k - i = (k - (i + 1)) + 1 := by omega
      rw [e, List.getD_cons_succ] at hk3
      have hk2' : k < i + 1 + rest.length := by simp only [List.length_cons] at hk2; omega
      cases hb : bindArgument rt method i arg st with
      | error m => rw [hb] at h; simp at h
      | ok st2 =>
        rw [hb] at h
        exact ih (i + 1) st2 st1 h k hk hk2' hk3

/-! ## C1: an argument with an unsupported tag -/

/-- C1 (amended): in a call one of whose host arguments, at a position `i ≥ 1`, is neither
null nor undefined and has an unsupported tag (`c`, `s`, `*`, `r*`, `^v`, `r^v`, `@?`), the
argument loop stops at the first position `j ≤ i` whose argument is neither null nor
undefined and has a rejected tag; whatever the native invocation would do, the call throws
the one error `ARGTYPE_NOT_SUPPORTED` naming the type of the tag at `j` (the tag at `i` when
no earlier argument is rejected), `Invoke` is not executed, no property of a host argument is
written and the return value is `undefined`. -/
theorem call_unsupported_argument_aborts (rt : Runtime) (obj : Proxy) (args : List Value)
    (i : Nat) (hi : 1 ≤ i) (hlen : i < args.length)
    (hnn : ((args.getD i .undefined).IsNull || (args.getD i .undefined).IsUndefined) = false)
    (htag : (resolveMethod rt obj (selectorOf rt args)).argumentType (i + 1) ∈ unsupportedTags) :
    ∃ j name, 1 ≤ j ∧ j ≤ i ∧
      ((args.getD j .undefined).IsNull || (args.getD j .undefined).IsUndefined) = false ∧
      rejectedTypeName ((resolveMethod rt obj (selectorOf rt args)).argumentType (j + 1))
        = some name ∧
      (∀ k, 1 ≤ k → k < j →
        ((args.getD k .undefined).IsNull || (args.getD k .undefined).IsUndefined) = true ∨
        rejectedTypeName ((resolveMethod rt obj (selectorOf rt args)).argumentType (k + 1))
          = none) ∧
      ∀ Invoke : Invocation → InvokeOutcome,
        (Call rt Invoke obj args).thrown = [ARGTYPE_NOT_SUPPORTED name] ∧
        (Call rt Invoke obj args).invoked = false ∧
        (Call rt Invoke obj args).returnValue = .undefined ∧
        (Call rt Invoke obj args).refWrites = [] := by
  have hlen' : i < 1 + (args.drop 1).length := by simp only [List.length_drop]; omega
  have hnn' : (((args.drop 1).getD (i - 1) .undefined).IsNull ||
      ((args.drop 1).getD (i - 1) .undefined).IsUndefined) = false := by
    rw [getD_drop_one args i 1 hi]; exact hnn
  obtain ⟨j, name, hj, hji⟩ := firstRejected_of_rejected _ (args.drop 1) 1 i hi hlen' hnn'
    (rejectedTypeName_of_unsupported _ htag)
  obtain ⟨h1, h2, h3, h4, h5⟩ := firstRejected_some _ _ 1 j name hj
  refine ⟨j, name, h1, hji, ?_, h4, ?_, ?_⟩
  · rw [getD_drop_one args j 1 h1] at h3; exact h3
  · intro k hk1 hk2
    have := h5 k hk1 hk2
    rw [getD_drop_one args k 1 hk1] at this; exact this
  · intro Invoke
    have hb := bindArguments_of_firstRejected rt (resolveMethod rt obj (selectorOf rt args))
      (args.drop 1) 1 ⟨⟨obj.obj_, selectorOf rt args, []⟩, []⟩
    rw [hj] at hb
    simp only at hb
    simp only [Call, hb, and_self]

/-- C1 (witness): the call `setByte:` with one number for a parameter of tag `c`. -/
theorem call_unsupported_argument_aborts_witness :
    (Call (exampleRuntime (exampleMethod ["c"] "v")) exampleInvoke exampleObject
        [.string "setByte:", .number (.int 1)]).thrown = [ARGTYPE_NOT_SUPPORTED "char"] ∧
    (Call (exampleRuntime (exampleMethod ["c"] "v")) exampleInvoke exampleObject
        [.string "setByte:", .number (.int 1)]).invoked = false := by
  obtain ⟨j, name, _, _, _, hname, _, h⟩ :=
    call_unsupported_argument_aborts (exampleRuntime (exampleMethod ["c"] "v")) exampleObject
      [.string "setByte:", .number (.int 1)] 1 (by decide) (by decide) (by decide) (by decide)
  have hj : j = 1 := by omega
  subst hj
  have hn : name = "char" := by
    have e : rejectedTypeName ((resolveMethod (exampleRuntime (exampleMethod ["c"] "v"))
        exampleObject (selectorOf (exampleRuntime (exampleMethod ["c"] "v"))
          [.string "setByte:", .number (.int 1)])).argumentType (1 + 1)) = some "char" := by
      decide
    rw [e] at hname
    exact (Option.some.inj hname).symm
  subst hn
  exact ⟨(h exampleInvoke).1, (h exampleInvoke).2.1⟩

/-- C1 (counterexample): in the call `setByte:count:` with two numbers for parameters of tags
`c` and `s`, the second argument is not null and has the unsupported tag `s`, yet the error
thrown names `char`, the type of the first argument, and not `short`. -/
theorem call_names_first_rejected_argument :
    (exampleMethod ["c", "s"] "v").argumentType (2 + 1) ∈ unsupportedTags ∧
    rejectedTypeName ((exampleMethod ["c", "s"] "v").argumentType (2 + 1)) = some "short" ∧
    (Call (exampleRuntime (exampleMethod ["c", "s"] "v")) exampleInvoke exampleObject
        [.string "setByte:count:", .number (.int 1), .number (.int 2)]).thrown
      = ["Error setting argument: Type 'char' not yet supported. Sorry."] ∧
    (Call (exampleRuntime (exampleMethod ["c", "s"] "v")) exampleInvoke exampleObject
        [.string "setByte:count:", .number (.int 1), .number (.int 2)]).thrown
      ≠ [ARGTYPE_NOT_SUPPORTED "short"] := by
  decide

/-! ## C2: the tags the argument loop accepts and rejects -/

/-- C2 (amended): for a host argument that is neither null nor undefined, the argument loop
raises no error when the expected tag is one of `@`, `^@`, `#`, `:`, `i`, `q`, `I`, `Q`, `L`,
`f`, `d`, `B`, and writes the slot `i + 1` for each of them but `#`; it throws the error
`ARGTYPE_NOT_SUPPORTED` and stops, the arguments behind being left unbound, when the tag is
one of `C`, `S`, `c`, `s`, `v`, `*`, `r*`, `^v`, `r^v`, `@?`. -/
theorem argument_tag_accepted_or_rejected (rt : Runtime) (method : Method) (i : Nat)
    (arg : Value) (rest : List Value) (st : BindState)
    (h : (arg.IsNull || arg.IsUndefined) = false) :
    (method.argumentType (i + 1) ∈ acceptedTags →
      ∃ st1, bindArgument rt method i arg st = .ok st1) ∧
    (method.argumentType (i + 1) ∈ acceptedTags → method.argumentType (i + 1) ≠ "#" →
      ∃ v io, bindArgument rt method i arg st =
        .ok ⟨st.invocation.SetArgumentAtIndex v (i + 1), io⟩) ∧
    (method.argumentType (i + 1) ∈ rejectedTags →
      ∃ name, rejectedTypeName (method.argumentType (i + 1)) = some name ∧
        bindArgument rt method i arg st = .error (ARGTYPE_NOT_SUPPORTED name) ∧
        bindArguments rt method i (arg :: rest) st = .error (ARGTYPE_NOT_SUPPORTED name)) := by
  refine ⟨fun ht => ?_, fun ht hc => bindArgument_writes_slot rt method i arg st h ht hc,
    fun ht => ?_⟩
  · obtain ⟨inv, hinv, _⟩ := bindArgument_accepted rt method i arg st h
      (rejectedTypeName_of_accepted _ ht)
    exact ⟨_, hinv⟩
  · obtain ⟨name, hname⟩ := rejectedTypeName_of_rejected _ ht
    have hb := bindArgument_rejected rt method i arg st h name hname
    exact ⟨name, hname, hb, by simp only [bindArguments, hb]⟩


/-- C2 (witness): a number for a parameter of tag `i` is bound in slot 2, and a number for a
parameter of tag `S` is rejected. -/
theorem argument_tag_accepted_or_rejected_witness :
    (∃ v io, bindArgument (exampleRuntime (exampleMethod ["i"] "v")) (exampleMethod ["i"] "v")
      1 (.number (.int 7)) ⟨⟨5, "setCount:", []⟩, []⟩ =
        .ok ⟨Invocation.SetArgumentAtIndex ⟨5, "setCount:", []⟩ v (1 + 1), io⟩) ∧
    (∃ name, rejectedTypeName ((exampleMethod ["S"] "v").argumentType (1 + 1)) = some name ∧
      bindArgument (exampleRuntime (exampleMethod ["S"] "v")) (exampleMethod ["S"] "v")
        1 (.number (.int 7)) ⟨⟨5, "setPort:", []⟩, []⟩ = .error (ARGTYPE_NOT_SUPPORTED name) ∧
      bindArguments (exampleRuntime (exampleMethod ["S"] "v")) (exampleMethod ["S"] "v")
        1 [.number (.int 7)] ⟨⟨5, "setPort:", []⟩, []⟩
          = .error (ARGTYPE_NOT_SUPPORTED name)) :=
  ⟨(argument_tag_accepted_or_rejected (exampleRuntime (exampleMethod ["i"] "v"))
      (exampleMethod ["i"] "v") 1 (.number (.int 7)) [] ⟨⟨5, "setCount:", []⟩, []⟩
      (by decide)).2.1 (by decide) (by decide),
   (argument_tag_accepted_or_rejected (exampleRuntime (exampleMethod ["S"] "v"))
      (exampleMethod ["S"] "v") 1 (.number (.int 7)) [] ⟨⟨5, "setPort:", []⟩, []⟩
      (by decide)).2.2 (by decide)⟩

/-- C2 (counterexample): the tag `C`, unsigned int8, is in the supported set of the claim, yet
a number passed for a parameter of that tag is rejected: the call `setLevel:` throws the error
naming `unsigned char` and `Invoke` is not executed. And the tag `l` is outside of that set,
yet a number passed for a parameter of that tag raises no error: the call `setOffset:` binds
no slot, throws nothing and executes `Invoke`. -/
theorem call_rejects_unsigned_char :
    (exampleMethod ["C"] "v").argumentType (1 + 1) ∈ supportedSlotTags ∧
    (Call (exampleRuntime (exampleMethod ["C"] "v")) exampleInvoke exampleObject
        [.string "setLevel:", .number (.int 200)]).thrown
      = ["Error setting argument: Type 'unsigned char' not yet supported. Sorry."] ∧
    (Call (exampleRuntime (exampleMethod ["C"] "v")) exampleInvoke exampleObject
        [.string "setLevel:", .number (.int 200)]).invoked = false ∧
    (exampleMethod ["l"] "v").argumentType (1 + 1) ∉ supportedSlotTags ∧
    boundSlots (exampleRuntime (exampleMethod ["l"] "v")) exampleObject
        [.string "setOffset:", .number (.int 200)] = some [] ∧
    (Call (exampleRuntime (exampleMethod ["l"] "v")) exampleInvoke exampleObject
        [.string "setOffset:", .number (.int 200)]).thrown = [] ∧
    (Call (exampleRuntime (exampleMethod ["l"] "v")) exampleInvoke exampleObject
        [.string "setOffset:", .number (.int 200)]).invoked = true := by
  decide

/-! ## C3: null and undefined arguments -/

/-- C3: for a host argument at a position `i ≥ 1` that is null or undefined, one turn of the
argument loop, for every method descriptor (so for every expected tag at native index `i + 1`)
and from every state, raises no error and only writes a null pointer into the slot `i + 1`,
the set of in/out indices being as before; and in the frame of a call whose binding
completes, the slot `i + 1` holds that null pointer. -/
theorem null_argument_binds_null_pointer (rt : Runtime) (obj : Proxy) (args : List Value)
    (i : Nat) (hi : 1 ≤ i) (hlen : i < args.length)
    (hnull : ((args.getD i .undefined).IsNull || (args.getD i .undefined).IsUndefined) = true) :
    (∀ (method : Method) (st : BindState),
      bindArgument rt method i (args.getD i .undefined) st =
        .ok ⟨st.invocation.SetArgumentAtIndex .nilArgument (i + 1), st.inoutArgs⟩ ∧
      (st.invocation.SetArgumentAtIndex .nilArgument (i + 1)).slot (i + 1)
        = some .nilArgument) ∧
    ∀ st1, bindArguments rt (resolveMethod rt obj (selectorOf rt args)) 1 (args.drop 1)
        ⟨⟨obj.obj_, selectorOf rt args, []⟩, []⟩ = .ok st1 →
      st1.invocation.slot (i + 1) = some .nilArgument := by
  refine ⟨fun method st => ⟨bindArgument_nullish rt method i _ st hnull, ?_⟩, ?_⟩
  · rw [slot_SetArgumentAtIndex, if_pos rfl]
  · intro st1 h
    refine bindArguments_slot_nullish rt _ (args.drop 1) 1 _ st1 h i hi ?_ ?_
    · simp only [List.length_drop]; omega
    · rw [getD_drop_one args i 1 hi]; exact hnull


/-- C3 (witness): `null` passed for a parameter of the unsupported tag `c`. -/
theorem null_argument_binds_null_pointer_witness :
    bindArgument (exampleRuntime (exampleMethod ["c"] "v")) (exampleMethod ["c"] "v") 1
        ([Value.string "setByte:", Value.null].getD 1 .undefined) ⟨⟨5, "setByte:", []⟩, []⟩ =
      .ok ⟨Invocation.SetArgumentAtIndex ⟨5, "setByte:", []⟩ .nilArgument (1 + 1), []⟩ :=
  (((null_argument_binds_null_pointer (exampleRuntime (exampleMethod ["c"] "v")) exampleObject
    [.string "setByte:", .null] 1 (by decide) (by decide) (by decide)).1
      (exampleMethod ["c"] "v") ⟨⟨5, "setByte:", []⟩, []⟩)).1

/-! ## C4: the round trip of an integer through a numeric tag -/

theorem wrapSigned32_bits32 (v : Int) :
    wrapSigned 32 ((wrapUnsigned 32 v).toNat : Int) = wrapSigned 32 v := by
  simp only [wrapSigned, wrapUnsigned]
  norm_num
  omega

theorem wrapUnsigned32_bits32 (v : Int) :
    wrapUnsigned 32 ((wrapUnsigned 32 v).toNat : Int) = wrapUnsigned 32 v := by
  simp only [wrapSigned, wrapUnsigned]
  norm_num
  omega

theorem wrapUnsigned32_idem (v : Int) :
    wrapUnsigned 32 (wrapUnsigned 32 v) = wrapUnsigned 32 v := by
  simp only [wrapSigned, wrapUnsigned]
  norm_num

theorem wrapUnsigned32_wrapSigned32 (v : Int) :
    wrapUnsigned 32 (wrapSigned 32 v) = wrapUnsigned 32 v := by
  simp only [wrapSigned, wrapUnsigned]
  norm_num
  omega

theorem wrapSigned32_wrapSigned32 (v : Int) :
    wrapSigned 32 (wrapSigned 32 v) = wrapSigned 32 v := by
  simp only [wrapSigned, wrapUnsigned]
  norm_num

theorem wrapSigned32_signed_bits64 (v : Int) :
    wrapSigned 32 (wrapSigned 64 ((wrapUnsigned 64 v).toNat : Int)) = wrapSigned 32 v := by
  simp only [wrapSigned, wrapUnsigned]
  norm_num
  omega

theorem wrapSigned32_unsigned_bits64 (v : Int) :
    wrapSigned 32 (wrapUnsigned 64 ((wrapUnsigned 64 (wrapUnsigned 64 (wrapSigned 32 v))).toNat
      : Int)) = wrapSigned 32 (wrapSigned 32 v) := by
  simp only [wrapSigned, wrapUnsigned]
  norm_num
  omega

/-- C4 (amended): for every integer valued host number `x`, the argument conversion of a tag
followed by the return conversion of the same tag gives `x` reduced to signed 32 bits for `i`
and to unsigned 32 bits for `I`; for `L` and `Q` it gives `x` reduced to signed 32 bits, and
for `q` the long long the argument was cast to (`x` itself when it fits signed 64 bits)
reduced to signed 32 bits: the 64 bit tags return through a cast to `int32_t`. -/
theorem integer_round_trip (rt : Runtime) (x : Int) :
    roundTrip rt "i" x = some (.number (.int (wrapSigned 32 x))) ∧
    roundTrip rt "I" x = some (.number (.int (wrapUnsigned 32 x))) ∧
    roundTrip rt "q" x = some (.number (.int (wrapSigned 32
      (if -2 ^ 63 ≤ x ∧ x < 2 ^ 63 then x else rt.longLongOutOfRange (.int x))))) ∧
    roundTrip rt "L" x = some (.number (.int (wrapSigned 32 x))) ∧
    roundTrip rt "Q" x = some (.number (.int (wrapSigned 32 x))) := by
  refine ⟨?_, ?_, ?_, ?_, ?_⟩
  · have e : roundTrip rt "i" x = some (.number (.int (wrapSigned 32
        ((wrapUnsigned 32 (wrapSigned 32 x)).toNat : Int)))) := rfl
    rw [e, wrapSigned32_bits32, wrapSigned32_wrapSigned32]
  · have e : roundTrip rt "I" x = some (.number (.int (wrapUnsigned 32
        ((wrapUnsigned 32 (wrapUnsigned 32 (wrapSigned 32 x))).toNat : Int)))) := rfl
    rw [e, wrapUnsigned32_bits32, wrapUnsigned32_idem, wrapUnsigned32_wrapSigned32]
  · have e : roundTrip rt "q" x = some (.number (.int (wrapSigned 32 (wrapSigned 64
        ((wrapUnsigned 64 (castLongLong rt (.int x))).toNat : Int))))) := rfl
    rw [e, wrapSigned32_signed_bits64]
    rfl
  · have e : roundTrip rt "L" x = some (.number (.int (wrapSigned 32 (wrapUnsigned 64
        ((wrapUnsigned 64 (wrapUnsigned 64 (wrapSigned 32 x))).toNat : Int))))) := rfl
    rw [e, wrapSigned32_unsigned_bits64, wrapSigned32_wrapSigned32]
  · have e : roundTrip rt "Q" x = some (.number (.int (wrapSigned 32 (wrapUnsigned 64
        ((wrapUnsigned 64 (wrapUnsigned 64 (wrapSigned 32 x))).toNat : Int))))) := rfl
    rw [e, wrapSigned32_unsigned_bits64, wrapSigned32_wrapSigned32]

/-- C4 (counterexample): the host number `2 ^ 32` comes back as `0` through the tag `q`, whose
declared narrowing to signed 64 bits keeps it; and `-1` comes back as `-1` through the tag `L`,
whose declared narrowing to unsigned 64 bits makes it `2 ^ 64 - 1`. -/
theorem round_trip_truncates_to_32_bits :
    roundTrip (exampleRuntime (exampleMethod [] "v")) "q" (2 ^ 32) = some (.number (.int 0)) ∧
    declaredNarrowing "q" (2 ^ 32) = 2 ^ 32 ∧
    roundTrip (exampleRuntime (exampleMethod [] "v")) "L" (-1) = some (.number (.int (-1))) ∧
    declaredNarrowing "L" (-1) = 2 ^ 64 - 1 :=
  ⟨rfl, by decide, rfl, by decide⟩

/-! ## C5: a native exception -/

theorem call_of_bindCall_ok (rt : Runtime) (Invoke : Invocation → InvokeOutcome) (obj : Proxy)
    (args : List Value) (st : BindState) (h : bindCall rt obj args = .ok st) :
    Call rt Invoke obj args =
      match Invoke st.invocation with
      | .raised exc =>
        ⟨.undefined, (exc.map (fun e => e.1 ++ " " ++ e.2)).toList, [], true⟩
      | .completed pointee returnBits =>
        ⟨(handleReturnValue rt (resolveMethod rt obj (selectorOf rt args)).returnType
            returnBits).1,
          (handleInoutArgs rt pointee st.inoutArgs ([], [])).2 ++
            (handleReturnValue rt (resolveMethod rt obj (selectorOf rt args)).returnType
              returnBits).2,
          (handleInoutArgs rt pointee st.inoutArgs ([], [])).1, true⟩ := by
  simp only [bindCall, initialState] at h
  unfold Call
  simp only [h]

/-- C5: when the binding of a call completes and the native invocation of the bound frame
raises, the call returns `undefined`, no property of a host argument is written (so the `ref`
property of every host argument is as before the call), the only host error is the one of the
exception hook, and nothing is read from the frame after `Invoke`: no write back and no
conversion of a return slot. -/
theorem call_native_exception (rt : Runtime) (Invoke : Invocation → InvokeOutcome)
    (obj : Proxy) (args : List Value) (st : BindState) (exc : Option (String × String))
    (hbind : bindCall rt obj args = .ok st) (hraise : Invoke st.invocation = .raised exc) :
    (Call rt Invoke obj args).returnValue = .undefined ∧
    (Call rt Invoke obj args).refWrites = [] ∧
    (Call rt Invoke obj args).thrown = (exc.map (fun e => e.1 ++ " " ++ e.2)).toList ∧
    (Call rt Invoke obj args).invoked = true := by
  rw [call_of_bindCall_ok rt Invoke obj args st hbind, hraise]
  exact ⟨rfl, rfl, rfl, rfl⟩

/-- C5 (witness): the call `objectAtIndex:error:` on a native side that raises. -/
theorem call_native_exception_witness :
    (Call (exampleRuntime (exampleMethod ["^@"] "@")) exampleRaise exampleObject
        [.string "objectAtIndex:error:", .object .empty .undefined .undefined]).returnValue
      = .undefined ∧
    (Call (exampleRuntime (exampleMethod ["^@"] "@")) exampleRaise exampleObject
        [.string "objectAtIndex:error:", .object .empty .undefined .undefined]).refWrites
      = [] ∧
    (Call (exampleRuntime (exampleMethod ["^@"] "@")) exampleRaise exampleObject
        [.string "objectAtIndex:error:", .object .empty .undefined .undefined]).thrown
      = ["NSRangeException index 3 beyond bounds"] ∧
    (Call (exampleRuntime (exampleMethod ["^@"] "@")) exampleRaise exampleObject
        [.string "objectAtIndex:error:", .object .empty .undefined .undefined]).invoked
      = true :=
  call_native_exception (exampleRuntime (exampleMethod ["^@"] "@")) exampleRaise exampleObject
    [.string "objectAtIndex:error:", .object .empty .undefined .undefined]
    ⟨⟨5, "objectAtIndex:error:", [(2, .object .mallocCell)]⟩, [2]⟩
    (some ("NSRangeException", "index 3 beyond bounds")) rfl rfl

/-! ## C6: the write back of in/out arguments -/

theorem stdAlign_of_even (p : Nat) (h : 2 ∣ p) :
    stdAlign 2 sizeofPointer p sizeofPointer = some p := by
  obtain ⟨k, rfl⟩ := h
  simp only [stdAlign, sizeofPointer]
  have e : (2 * k + (2 - 1)) / 2 * 2 = 2 * k := by omega
  simp [e]

theorem CreateNewObjCWrapperFrom_eq (rt : Runtime) (obj : Id) :
    CreateNewObjCWrapperFrom rt obj = (instanceHandle obj, []) := by
  simp only [CreateNewObjCWrapperFrom, stdAlign_of_even _ (rt.operatorNew_aligned obj)]
  rfl

theorem mem_setInsert_intLess (a k : Nat) (l : List Nat) :
    k ∈ setInsert intLess a l ↔ k = a ∨ k ∈ l := by
  induction l with
  | nil => simp [setInsert]
  | cons b l ih =>
    simp only [setInsert, intLess, decide_eq_true_eq]
    by_cases h1 : a < b
    · simp [h1]
    · by_cases h2 : b < a
      · simp only [h1, h2, if_false, if_true, List.mem_cons, ih]
        tauto
      · have e : a = b := by omega
        subst e
        simp [h1]

/-- The in/out indices of a completed binding from position `i` on: those recorded before,
and `k + 1` for every position `k` whose argument is neither null nor undefined and whose
expected tag is `^@`. -/
theorem bindArguments_inoutArgs (rt : Runtime) (method : Method) (rest : List Value) :
    ∀ (i : Nat) (st st1 : BindState), bindArguments rt method i rest st = .ok st1 →
      ∀ q, q ∈ st1.inoutArgs ↔ q ∈ st.inoutArgs ∨
        ∃ k, q = k + 1 ∧ i ≤ k ∧ k < i + rest.length ∧
          ((rest.getD (k - i) .undefined).IsNull ||
            (rest.getD (k - i) .undefined).IsUndefined) = false ∧
          method.argumentType (k + 1) = "^@" := by
  induction rest with
  | nil =>
    intro i st st1 h q
    simp only [bindArguments, Except.ok.injEq] at h
    subst h
    constructor
    · exact fun hq => Or.inl hq
    · rintro (hq | ⟨k, _, h1, h2, _⟩)
      · exact hq
      · simp at h2; omega
  | cons arg rest ih =>
    intro i st st1 h q
    simp only [bindArguments] at h
    have shift : ∀ k, i + 1 ≤ k → (arg :: rest).getD (k - i) .undefined
        = rest.getD (k - (i + 1)) .undefined := by
      intro k hk
      have e : k - i = (k - (i + 1)) + 1 := by omega
      rw [e, List.getD_cons_succ]
    by_cases hnull : (arg.IsNull || arg.IsUndefined) = true
    · rw [bindArgument_nullish rt method i arg st hnull] at h
      rw [ih (i + 1) _ st1 h q]
      constructor
      · rintro (hq | ⟨k, hk, h1, h2, h3, h4⟩)
        · exact Or.inl hq
        · refine Or.inr ⟨k, hk, by omega, by simp only [List.length_cons]; omega, ?_, h4⟩
          rw [shift k h1]; exact h3
      · rintro (hq | ⟨k, hk, h1, h2, h3, h4⟩)
        · exact Or.inl hq
        · rcases Nat.eq_or_lt_of_le h1 with e | e
          · subst e
            simp only [Nat.sub_self, List.getD_cons_zero] at h3
            rw [h3] at hnull; exact absurd hnull (by simp)
          · refine Or.inr ⟨k, hk, e, by simp only [List.length_cons] at h2; omega, ?_, h4⟩
            rw [← shift k e]; exact h3
    · have hnull' : (arg.IsNull || arg.IsUndefined) = false := by simpa using hnull
      cases hr : rejectedTypeName (method.argumentType (i + 1)) with
      | some n =>
        rw [bindArgument_rejected rt method i arg st hnull' n hr] at h
        simp at h
      | none =>
        obtain ⟨inv, hinv, _⟩ := bindArgument_accepted rt method i arg st hnull' hr
        rw [hinv] at h
        rw [ih (i + 1) _ st1 h q]
        simp only
        constructor
        · rintro (hq | ⟨k, hk, h1, h2, h3, h4⟩)
          · by_cases ht : method.argumentType (i + 1) = "^@"
            · rw [if_pos ht, mem_setInsert_intLess] at hq
              rcases hq with hq | hq
              · exact Or.inr ⟨i, hq, le_refl _, by simp, by simpa using hnull', ht⟩
              · exact Or.inl hq
            · rw [if_neg ht] at hq; exact Or.inl hq
          · refine Or.inr ⟨k, hk, by omega, by simp only [List.length_cons]; omega, ?_, h4⟩
            rw [shift k h1]; exact h3
        · rintro (hq | ⟨k, hk, h1, h2, h3, h4⟩)
          · left
            by_cases ht : method.argumentType (i + 1) = "^@"
            · rw [if_pos ht, mem_setInsert_intLess]; exact Or.inr hq
            · rw [if_neg ht]; exact hq
          · rcases Nat.eq_or_lt_of_le h1 with e | e
            · subst e
              left
              rw [if_pos h4, mem_setInsert_intLess]; exact Or.inl hk
            · refine Or.inr ⟨k, hk, e, by simp only [List.length_cons] at h2; omega, ?_, h4⟩
              rw [← shift k e]; exact h3

/-- The in/out indices of a call whose binding completes. -/
theorem bindCall_inoutArgs (rt : Runtime) (obj : Proxy) (args : List Value) (st : BindState)
    (h : bindCall rt obj args = .ok st) (q : Nat) :
    q ∈ st.inoutArgs ↔ ∃ k, q = k + 1 ∧ 1 ≤ k ∧ k < args.length ∧
      ((args.getD k .undefined).IsNull || (args.getD k .undefined).IsUndefined) = false ∧
      (resolveMethod rt obj (selectorOf rt args)).argumentType (k + 1) = "^@" := by
  rw [bindArguments_inoutArgs rt _ (args.drop 1) 1 _ st h q]
  simp only [initialState, List.not_mem_nil, false_or, List.length_drop]
  constructor
  · rintro ⟨k, hk, h1, h2, h3, h4⟩
    rw [getD_drop_one args k 1 h1] at h3
    exact ⟨k, hk, h1, by omega, h3, h4⟩
  · rintro ⟨k, hk, h1, h2, h3, h4⟩
    rw [← getD_drop_one args k 1 h1] at h3
    exact ⟨k, hk, h1, by omega, h3, h4⟩

/-- The writes of the loop over `inoutArgs`: one for every recorded index, in order, at the
position below the index, of the value `writtenBack`; and no host error. -/
theorem handleInoutArgs_eq (rt : Runtime) (pointee : Nat → Id) (ks : List Nat) :
    ∀ (writes : List (Nat × Value)) (thrown : List String),
      handleInoutArgs rt pointee ks (writes, thrown) =
        (writes ++ ks.map (fun k => (k - 1, writtenBack pointee k)), thrown) := by
  induction ks with
  | nil => intro writes thrown; simp [handleInoutArgs]
  | cons k ks ih =>
    intro writes thrown
    simp only [handleInoutArgs]
    by_cases hp : pointee k ≠ 0
    · rw [if_pos hp, ih, CreateNewObjCWrapperFrom_eq]
      simp [writtenBack, hp]
    · have hp0 : pointee k = 0 := not_not.1 hp
      rw [if_neg hp, ih]
      simp [writtenBack, hp0]

/-- C7: the constructor with the discriminator `0` (class) and a class name throws the error
`Error: Class with name '...' doesn't exist` and wraps nothing exactly when `objc_getClass`
returns nil for the name, and otherwise returns a handle wrapping the class found, on which
`type()` is `0`; with the discriminator `1` (instance) it returns a handle on which `type()`
is `1`. -/
theorem construct_class_or_instance (rt : Runtime) (name : Value) (object : Id)
    (ptr ref : Value) :
    New rt (.number (.int 0)) name =
      (if rt.objc_getClass (rt.ValueToChar name) = 0 then
        some (.threw ("Error: Class with name '" ++ rt.ValueToChar name ++ "' doesn't exist"))
      else
        some (.constructed
          (.object (.proxy ⟨.klass, rt.objc_getClass (rt.ValueToChar name)⟩)
            .undefined .undefined))) ∧
    Type_ (.object (.proxy ⟨.klass, rt.objc_getClass (rt.ValueToChar name)⟩)
      .undefined .undefined) = some 0 ∧
    New rt (.number (.int 1)) (.object (.aligned object) ptr ref) =
      some (.constructed (instanceHandle object)) ∧
    Type_ (instanceHandle object) = some 1 := by
  refine ⟨?_, rfl, rfl, rfl⟩
  by_cases h : rt.objc_getClass (rt.ValueToChar name) = 0
  · simp only [New, h, if_true]
    rfl
  · simp only [h, if_false]
    have e : New rt (.number (.int 0)) name =
        if rt.objc_getClass (rt.ValueToChar name) = 0 then
          some (.threw ("Error: Class with name '" ++ rt.ValueToChar name ++ "' doesn't exist"))
        else some (.constructed (.object (.proxy ⟨.klass, rt.objc_getClass
          (rt.ValueToChar name)⟩) .undefined .undefined)) := rfl
    rw [e, if_neg h]


/-! ## C8: the method names of a class chain -/

theorem stringLess_iff (a b : String) : stringLess a b = true ↔ a < b := by
  simp only [stringLess, decide_eq_true_eq, String.lt_iff_toList_lt]

theorem mem_setInsert_stringLess (a k : String) (l : List String) :
    k ∈ setInsert stringLess a l ↔ k = a ∨ k ∈ l := by
  induction l with
  | nil => simp [setInsert]
  | cons b l ih =>
    simp only [setInsert]
    by_cases h1 : stringLess a b = true
    · simp [h1]
    · by_cases h2 : stringLess b a = true
      · rw [if_neg h1, if_pos h2, List.mem_cons, List.mem_cons, ih]
        tauto
      · have e : a = b := by
          rw [stringLess_iff] at h1 h2
          exact le_antisymm (not_lt.1 h2) (not_lt.1 h1)
        subst e
        rw [if_neg h1, if_neg h2, List.mem_cons]
        tauto

theorem sorted_setInsert_stringLess (a : String) (l : List String)
    (h : l.Sorted (· < ·)) : (setInsert stringLess a l).Sorted (· < ·) := by
  induction l with
  | nil => simp [setInsert]
  | cons b l ih =>
    simp only [setInsert]
    have hb := List.sorted_cons.1 h
    by_cases h1 : stringLess a b = true
    · rw [if_pos h1]
      rw [stringLess_iff] at h1
      refine List.sorted_cons.2 ⟨?_, h⟩
      intro c hc
      rcases List.mem_cons.1 hc with rfl | hc
      · exact h1
      · exact lt_trans h1 (hb.1 c hc)
    · rw [if_neg h1]
      by_cases h2 : stringLess b a = true
      · rw [if_pos h2]
        refine List.sorted_cons.2 ⟨?_, ih hb.2⟩
        intro c hc
        rcases (mem_setInsert_stringLess a c l).1 hc with rfl | hc
        · exact (stringLess_iff _ _).1 h2
        · exact hb.1 c hc
      · rw [if_neg h2]; exact h

theorem insertMethodNames_spec (names : List String) :
    ∀ methods : List String, methods.Sorted (· < ·) →
      (insertMethodNames names methods).Sorted (· < ·) ∧
      ∀ m, m ∈ insertMethodNames names methods ↔ m ∈ names ∨ m ∈ methods := by
  induction names with
  | nil => intro methods h; exact ⟨h, fun m => by simp [insertMethodNames]⟩
  | cons n names ih =>
    intro methods h
    obtain ⟨h1, h2⟩ := ih _ (sorted_setInsert_stringLess n methods h)
    refine ⟨h1, fun m => ?_⟩
    simp only [insertMethodNames]
    rw [h2 m, mem_setInsert_stringLess, List.mem_cons]
    tauto

theorem getMethodsOfClass_spec (rt : Runtime) (depth : Nat) :
    ∀ (cls : Id) (methods : List String) (fuel : Nat),
      ancestor rt cls (depth + 1) = 0 →
      (∀ j, 1 ≤ j → j ≤ depth → ancestor rt cls j ≠ 0) →
      depth < fuel → methods.Sorted (· < ·) →
      ∃ result, getMethodsOfClass rt fuel cls methods = some result ∧
        result.Sorted (· < ·) ∧
        ∀ m, m ∈ result ↔ m ∈ methods ∨
          ∃ j, j ≤ depth ∧ m ∈ rt.class_copyMethodList (ancestor rt cls j) := by
  induction depth with
  | zero =>
    intro cls methods fuel hroot _ hfuel hs
    obtain ⟨fuel, rfl⟩ : ∃ f, fuel = f + 1 := ⟨fuel - 1, by omega⟩
    have hsuper : rt.class_getSuperclass cls = 0 := hroot
    obtain ⟨h1, h2⟩ := insertMethodNames_spec (rt.class_copyMethodList cls) methods hs
    refine ⟨_, by simp only [getMethodsOfClass, hsuper, ne_eq, not_true_eq_false, if_false],
      h1, fun m => ?_⟩
    rw [h2 m]
    constructor
    · rintro (h | h)
      · exact Or.inr ⟨0, le_refl _, h⟩
      · exact Or.inl h
    · rintro (h | ⟨j, hj, h⟩)
      · exact Or.inr h
      · have : j = 0 := by omega
        subst this
        exact Or.inl h
  | succ depth ih =>
    intro cls methods fuel hroot hchain hfuel hs
    obtain ⟨fuel, rfl⟩ : ∃ f, fuel = f + 1 := ⟨fuel - 1, by omega⟩
    have hsuper : rt.class_getSuperclass cls ≠ 0 := hchain 1 (le_refl _) (by omega)
    obtain ⟨h1, h2⟩ := insertMethodNames_spec (rt.class_copyMethodList cls) methods hs
    obtain ⟨result, hr, hsorted, hmem⟩ := ih (rt.class_getSuperclass cls)
      (insertMethodNames (rt.class_copyMethodList cls) methods) fuel hroot
      (fun j hj1 hj2 => hchain (j + 1) (by omega) (by omega)) (by omega) h1
    refine ⟨result, by simp only [getMethodsOfClass, hsuper, ne_eq, not_false_eq_true, if_true,
      hr], hsorted, fun m => ?_⟩
    rw [hmem m, h2 m]
    constructor
    · rintro ((h | h) | ⟨j, hj, h⟩)
      · exact Or.inr ⟨0, by omega, h⟩
      · exact Or.inl h
      · exact Or.inr ⟨j + 1, by omega, h⟩
    · rintro (h | ⟨j, hj, h⟩)
      · exact Or.inl (Or.inr h)
      · cases j with
        | zero => exact Or.inl (Or.inl h)
        | succ j => exact Or.inr ⟨j, by omega, h⟩

theorem Methods_emptyCache (rt : Runtime) (fuel : Nat) (obj : Proxy) (args0 : Value) :
    (Methods rt fuel emptyCache obj args0).map Prod.fst =
      getMethodsOfClass rt fuel (classToEnumerate rt obj (rt.ValueToChar args0)) [] := by
  simp only [Methods, emptyCache, MethodMap.index]
  split_ifs with h1
  all_goals first
    | (simp at *; done)
    | (cases getMethodsOfClass rt fuel (classToEnumerate rt obj (rt.ValueToChar args0)) []
        <;> rfl)

/-- C8: for a class whose inheritance chain ends after `depth` ancestors, `getMethodsOfClass`
returns with any fuel above `depth`, and so does `Proxy::Methods` on caches that hold nothing;
the sequence returned is strictly increasing in string order, so sorted and without
duplicates, and its elements are exactly the method names defined at the class or at one of
its ancestors up to the root. -/
theorem methods_sorted_without_duplicates (rt : Runtime) (obj : Proxy) (args0 : Value)
    (depth fuel : Nat)
    (hroot : ancestor rt (classToEnumerate rt obj (rt.ValueToChar args0)) (depth + 1) = 0)
    (hchain : ∀ j, 1 ≤ j → j ≤ depth →
      ancestor rt (classToEnumerate rt obj (rt.ValueToChar args0)) j ≠ 0)
    (hfuel : depth < fuel) :
    ∃ methods,
      getMethodsOfClass rt fuel (classToEnumerate rt obj (rt.ValueToChar args0)) []
        = some methods ∧
      (Methods rt fuel emptyCache obj args0).map Prod.fst = some methods ∧
      methods.Sorted (· < ·) ∧
      methods.Nodup ∧
      ∀ m, m ∈ methods ↔ ∃ j, j ≤ depth ∧
        m ∈ rt.class_copyMethodList
          (ancestor rt (classToEnumerate rt obj (rt.ValueToChar args0)) j) := by
  obtain ⟨methods, h1, h2, h3⟩ := getMethodsOfClass_spec rt depth _ [] fuel hroot hchain hfuel
    List.sorted_nil
  refine ⟨methods, h1, by rw [Methods_emptyCache, h1], h2, h2.nodup, fun m => ?_⟩
  rw [h3 m]
  simp


/-- C8 (witness): the instance methods of `NSString`, whose name `description` is also defined
by its superclass `NSObject`. -/
theorem methods_sorted_without_duplicates_witness :
    (Methods (exampleRuntime (exampleMethod [] "v")) 2 emptyCache ⟨.klass, 3⟩
      (.string "instance")).map Prod.fst =
        some ["characterAtIndex:", "description", "hash", "init", "length"] := by
  obtain ⟨methods, h1, h2, _⟩ :=
    methods_sorted_without_duplicates (exampleRuntime (exampleMethod [] "v")) ⟨.klass, 3⟩
      (.string "instance") 1 2 (by decide)
      (fun j hj1 hj2 => by
        have e : j = 1 := by omega
        subst e
        decide)
      (by decide)
  exact h2.trans (h1.symm.trans (by decide))

/-! ## C9: the caches of `Proxy::Methods` -/

theorem Methods_eq (rt : Runtime) (fuel : Nat) (cache : MethodCache) (obj : Proxy)
    (args0 : Value) :
    Methods rt fuel cache obj args0 =
      if EQUAL (rt.ValueToChar args0) "class" then
        (lookupOrEnumerate cache.cachedClassMethods
          (rt.class_getName (classToEnumerate rt obj (rt.ValueToChar args0)))
          (getMethodsOfClass rt fuel (classToEnumerate rt obj (rt.ValueToChar args0)) [])).map
          (fun r => (r.1, { cache with cachedClassMethods := r.2 }))
      else
        (lookupOrEnumerate cache.cachedInstanceMethods
          (rt.class_getName (classToEnumerate rt obj (rt.ValueToChar args0)))
          (getMethodsOfClass rt fuel (classToEnumerate rt obj (rt.ValueToChar args0)) [])).map
          (fun r => (r.1, { cache with cachedInstanceMethods := r.2 })) := by
  simp only [Methods, lookupOrEnumerate]
  split_ifs <;> first
    | rfl
    | (cases getMethodsOfClass rt fuel (classToEnumerate rt obj (rt.ValueToChar args0)) []
        <;> rfl)

theorem lookupOrEnumerate_spec (m m1 : MethodMap) (key : String)
    (enumerated : Option (List String)) (methods : List String)
    (h : lookupOrEnumerate m key enumerated = some (methods, m1)) :
    (∃ m2, lookupOrEnumerate m1 key enumerated = some (methods, m2)) ∧
    (methods ≠ [] → ∀ e, lookupOrEnumerate m1 key e = some (methods, m1)) ∧
    (∀ k entry, entry ≠ [] → m k = some entry → m1 k = some entry) := by
  have hit : ∀ (m0 : MethodMap) (v : List String), m0 key = some v → v ≠ [] →
      ∀ e, lookupOrEnumerate m0 key e = some (v, m0) := by
    intro m0 v h0 hv e
    have hl : v.length ≠ 0 := fun hc => hv (List.length_eq_zero.1 hc)
    simp only [lookupOrEnumerate, MethodMap.index, h0, hl, ne_eq, not_false_eq_true, if_true]
  have miss : ∀ (m0 : MethodMap) (ms : List String), m0 key = some [] →
      lookupOrEnumerate m0 key (some ms) = some (ms, m0.assign key ms) := by
    intro m0 ms h0
    simp only [lookupOrEnumerate, MethodMap.index, h0, List.length_nil, ne_eq,
      not_true_eq_false, if_false]
  have again : ∀ (m0 : MethodMap) (ms : List String), m0 key = some ms → enumerated = some ms →
      ∃ m2, lookupOrEnumerate m0 key enumerated = some (ms, m2) := by
    intro m0 ms h0 he
    by_cases hms : ms = []
    · subst hms; rw [he]; exact ⟨_, miss m0 [] h0⟩
    · exact ⟨_, hit m0 ms h0 hms enumerated⟩
  have assigned : ∀ (m0 : MethodMap) (ms : List String), (m0.assign key ms) key = some ms := by
    intro m0 ms; simp only [MethodMap.assign, if_true]
  cases hm : m key with
  | none =>
    simp only [lookupOrEnumerate, MethodMap.index, hm, List.length_nil, ne_eq,
      not_true_eq_false, if_false] at h
    cases he : enumerated with
    | none => rw [he] at h; simp at h
    | some ms =>
      rw [he] at h
      simp only [Option.some.injEq, Prod.mk.injEq] at h
      obtain ⟨rfl, rfl⟩ := h
      refine ⟨?_, fun hne e => hit _ ms (assigned _ ms) hne e, ?_⟩
      · rw [← he]; exact again _ ms (assigned _ ms) he
      · intro k entry _ hk
        by_cases hkk : k = key
        · subst hkk; rw [hm] at hk; simp at hk
        · simp only [MethodMap.assign, hkk, if_false]; exact hk
  | some v =>
    by_cases hv : v = []
    · subst hv
      cases he : enumerated with
      | none =>
        rw [he] at h
        simp [lookupOrEnumerate, MethodMap.index, hm] at h
      | some ms =>
        rw [he, miss m ms hm] at h
        simp only [Option.some.injEq, Prod.mk.injEq] at h
        obtain ⟨rfl, rfl⟩ := h
        refine ⟨?_, fun hne e => hit _ ms (assigned _ ms) hne e, ?_⟩
        · rw [← he]; exact again _ ms (assigned _ ms) he
        · intro k entry hentry hk
          by_cases hkk : k = key
          · subst hkk
            rw [hm] at hk
            exact absurd (Option.some.inj hk).symm hentry
          · simp only [MethodMap.assign, hkk, if_false]; exact hk
    · rw [hit m v hm hv enumerated] at h
      simp only [Option.some.injEq, Prod.mk.injEq] at h
      obtain ⟨rfl, rfl⟩ := h
      exact ⟨⟨_, hit m v hm hv enumerated⟩, fun _ e => hit m v hm hv e, fun k entry _ hk => hk⟩

/-- C9 (amended): when a call of `Proxy::Methods` returns a sequence, the next call with the
same receiver and method type returns the identical sequence; when that sequence is not
empty the next call takes it from the cache without enumerating the class chain (it needs no
fuel and does not depend on the method lists or superclasses of the runtime it runs in); and
a non-empty entry of either cache, under any key, is still there after the call, whatever the
receiver and the method type of the call. -/
theorem methods_cache_idempotent (rt : Runtime) (fuel : Nat) (cache : MethodCache)
    (obj : Proxy) (args0 : Value) (methods : List String) (cache1 : MethodCache)
    (h : Methods rt fuel cache obj args0 = some (methods, cache1)) :
    (∃ cache2, Methods rt fuel cache1 obj args0 = some (methods, cache2)) ∧
    (methods ≠ [] → ∀ (rt1 : Runtime) (fuel1 : Nat),
      rt1.ValueToChar args0 = rt.ValueToChar args0 →
      rt1.class_getName (classToEnumerate rt1 obj (rt1.ValueToChar args0)) =
        rt.class_getName (classToEnumerate rt obj (rt.ValueToChar args0)) →
      Methods rt1 fuel1 cache1 obj args0 = some (methods, cache1)) ∧
    (∀ key entry, entry ≠ [] →
      (cache.cachedClassMethods key = some entry →
        cache1.cachedClassMethods key = some entry) ∧
      (cache.cachedInstanceMethods key = some entry →
        cache1.cachedInstanceMethods key = some entry)) := by
  rw [Methods_eq] at h
  by_cases hk : EQUAL (rt.ValueToChar args0) "class" = true
  · rw [if_pos hk] at h
    cases hl : lookupOrEnumerate cache.cachedClassMethods
        (rt.class_getName (classToEnumerate rt obj (rt.ValueToChar args0)))
        (getMethodsOfClass rt fuel (classToEnumerate rt obj (rt.ValueToChar args0)) []) with
    | none => rw [hl] at h; simp at h
    | some r =>
      obtain ⟨ms, m1⟩ := r
      rw [hl] at h
      simp only [Option.map_some', Option.some.injEq, Prod.mk.injEq] at h
      obtain ⟨rfl, rfl⟩ := h
      obtain ⟨⟨m2, h1⟩, h2, h3⟩ := lookupOrEnumerate_spec _ _ _ _ _ hl
      refine ⟨⟨_, by rw [Methods_eq, if_pos hk]; simp only [h1]; rfl⟩, ?_, ?_⟩
      · intro hne rt1 fuel1 e1 e2
        rw [Methods_eq, e2, e1, if_pos hk]
        simp only [h2 hne]
        rfl
      · intro key entry hentry
        exact ⟨h3 key entry hentry, fun hi => hi⟩
  · rw [if_neg hk] at h
    cases hl : lookupOrEnumerate cache.cachedInstanceMethods
        (rt.class_getName (classToEnumerate rt obj (rt.ValueToChar args0)))
        (getMethodsOfClass rt fuel (classToEnumerate rt obj (rt.ValueToChar args0)) []) with
    | none => rw [hl] at h; simp at h
    | some r =>
      obtain ⟨ms, m1⟩ := r
      rw [hl] at h
      simp only [Option.map_some', Option.some.injEq, Prod.mk.injEq] at h
      obtain ⟨rfl, rfl⟩ := h
      obtain ⟨⟨m2, h1⟩, h2, h3⟩ := lookupOrEnumerate_spec _ _ _ _ _ hl
      refine ⟨⟨_, by rw [Methods_eq, if_neg hk]; simp only [h1]; rfl⟩, ?_, ?_⟩
      · intro hne rt1 fuel1 e1 e2
        rw [Methods_eq, e2, e1, if_neg hk]
        simp only [h2 hne]
        rfl
      · intro key entry hentry
        exact ⟨fun hi => hi, h3 key entry hentry⟩

/-- C9 (witness): the instance methods of `NSString` are listed a second time without fuel. -/
theorem methods_cache_idempotent_witness :
    Methods (exampleRuntime (exampleMethod [] "v")) 0 exampleCache ⟨.klass, 3⟩
      (.string "instance") =
        some (["characterAtIndex:", "description", "hash", "init", "length"], exampleCache) :=
  (methods_cache_idempotent (exampleRuntime (exampleMethod [] "v")) 2 emptyCache ⟨.klass, 3⟩
    (.string "instance") ["characterAtIndex:", "description", "hash", "init", "length"]
    exampleCache rfl).2.1 (by decide) (exampleRuntime (exampleMethod [] "v")) 0 rfl rfl

/-- C9 (counterexample): for the root class `Bare`, which has no method, the first call
returns the empty sequence and so does the second; but the second call enumerates the chain
again: without fuel it has no result, and once the class has gained a method it returns that
method and not the sequence of the first call. -/
theorem methods_of_empty_class_enumerated_again :
    (Methods (exampleRuntime (exampleMethod [] "v")) 1 emptyCache ⟨.klass, 4⟩
      (.string "instance")).map Prod.fst = some [] ∧
    secondMethods (exampleRuntime (exampleMethod [] "v"))
      (exampleRuntime (exampleMethod [] "v")) 1 1 emptyCache ⟨.klass, 4⟩ (.string "instance")
        = some [] ∧
    secondMethods (exampleRuntime (exampleMethod [] "v"))
      (exampleRuntime (exampleMethod [] "v")) 1 0 emptyCache ⟨.klass, 4⟩ (.string "instance")
        = none ∧
    secondMethods (exampleRuntime (exampleMethod [] "v"))
      (exampleRuntimeGrown (exampleMethod [] "v")) 1 1 emptyCache ⟨.klass, 4⟩
      (.string "instance") = some ["ping"] := by
  decide

/-! ## C10: an object as return value -/

/-- C10: when a call completes and the return tag is `@`, the return value is a new handle of
kind instance wrapping the returned pointer, whatever that pointer is: `type()` is `1` on it,
`isNil()` holds exactly when the pointer is nil, and it is no host string, number or
boolean. -/
theorem call_returns_object_handle (rt : Runtime) (Invoke : Invocation → InvokeOutcome)
    (obj : Proxy) (args : List Value) (st : BindState) (pointee : Nat → Id) (returnBits : Nat)
    (hbind : bindCall rt obj args = .ok st)
    (hdone : Invoke st.invocation = .completed pointee returnBits)
    (hret : (resolveMethod rt obj (selectorOf rt args)).returnType = "@") :
    (Call rt Invoke obj args).returnValue = instanceHandle returnBits ∧
    Unwrap (Call rt Invoke obj args).returnValue = some ⟨.instance_, returnBits⟩ ∧
    Type_ (Call rt Invoke obj args).returnValue = some 1 ∧
    IsNil (Call rt Invoke obj args).returnValue = some (returnBits == 0) ∧
    (Call rt Invoke obj args).returnValue.IsString = false ∧
    (Call rt Invoke obj args).returnValue.IsNumber = false ∧
    (Call rt Invoke obj args).returnValue.IsBoolean = false := by
  have e : (Call rt Invoke obj args).returnValue = instanceHandle returnBits := by
    rw [call_of_bindCall_ok rt Invoke obj args st hbind, hdone]
    simp only [hret, handleReturnValue, EQUAL, beq_self_eq_true, if_true,
      CreateNewObjCWrapperFrom_eq]
  rw [e]
  exact ⟨rfl, rfl, rfl, rfl, rfl, rfl, rfl⟩

/-- C10 (witness): the call `description` on a native side that returns the pointer `9`. -/
theorem call_returns_object_handle_witness :
    (Call (exampleRuntime (exampleMethod [] "@")) exampleInvoke exampleObject
        [.string "description"]).returnValue = instanceHandle 9 ∧
    IsNil (Call (exampleRuntime (exampleMethod [] "@")) exampleInvoke exampleObject
        [.string "description"]).returnValue = some false :=
  ⟨(call_returns_object_handle (exampleRuntime (exampleMethod [] "@")) exampleInvoke
      exampleObject [.string "description"] ⟨⟨5, "description", []⟩, []⟩ (fun _ => 7) 9
      rfl rfl rfl).1,
   (call_returns_object_handle (exampleRuntime (exampleMethod [] "@")) exampleInvoke
      exampleObject [.string "description"] ⟨⟨5, "description", []⟩, []⟩ (fun _ => 7) 9
      rfl rfl rfl).2.2.2.1⟩

/-! ## C11: the return tags that give no value -/

theorem handleReturnValue_no_branch (rt : Runtime) (t : String) (bits : Nat)
    (h1 : t ≠ "@") (h2 : t ≠ "c") (h3 : t ≠ "i") (h4 : t ≠ "s") (h5 : t ≠ "q") (h6 : t ≠ "C")
    (h7 : t ≠ "I") (h8 : t ≠ "S") (h9 : t ≠ "L") (h10 : t ≠ "Q") (h11 : t ≠ "f")
    (h12 : t ≠ "d") (h13 : t ≠ "B") (h14 : t ≠ "*") (h15 : t ≠ "r*") :
    handleReturnValue rt t bits = (.undefined, []) := by
  unfold handleReturnValue
  simp only [EQUAL, beq_iff_eq, Bool.or_eq_true, h1, h2, h3, h4, h5, h6, h7, h8, h9, h10, h11,
    h12, h13, h14, h15, if_false, or_self]
  clear h1 h2 h3 h4 h5 h6 h7 h8 h9 h10 h11 h12 h13 h14 h15
  by_cases c : t = "v"
  · rw [if_pos c]
  rw [if_neg c]
  by_cases c2 : t = "#"
  · rw [if_pos c2]
  rw [if_neg c2]
  by_cases c3 : t = ":"
  · rw [if_pos c3]
  · rw [if_neg c3]

theorem handleInoutArgs_thrown (rt : Runtime) (pointee : Nat → Id) (ks : List Nat)
    (writes : List (Nat × Value)) (thrown : List String) :
    (handleInoutArgs rt pointee ks (writes, thrown)).2 = thrown := by
  rw [handleInoutArgs_eq]

/-- C11 (amended): when a call completes and the return tag is `v`, `#` or `:`, or a tag that
is outside of the supported set of the Type Encoding Table and is none of `c`, `s`, `*`, `r*`
(so `^v`, a struct encoding, ...), the return value is `undefined`, no host error is thrown,
and the return dispatch gives `undefined` whatever the bits of the return slot: nothing is
made from the slot. The tags `c` and `s` have branches of their own, which return the slot as
a host integer of 8 and 16 signed bits, and `*` and `r*` return it as a host string. -/
theorem call_returns_no_value (rt : Runtime) (Invoke : Invocation → InvokeOutcome)
    (obj : Proxy) (args : List Value) (st : BindState) (pointee : Nat → Id) (returnBits : Nat)
    (hbind : bindCall rt obj args = .ok st)
    (hdone : Invoke st.invocation = .completed pointee returnBits)
    (htag : (resolveMethod rt obj (selectorOf rt args)).returnType ∈ ["v", "#", ":"] ∨
      ((resolveMethod rt obj (selectorOf rt args)).returnType ∉ supportedTableTags ∧
       (resolveMethod rt obj (selectorOf rt args)).returnType ∉ ["c", "s", "*", "r*"])) :
    (Call rt Invoke obj args).returnValue = .undefined ∧
    (Call rt Invoke obj args).thrown = [] ∧
    (∀ bits, handleReturnValue rt (resolveMethod rt obj (selectorOf rt args)).returnType bits
      = (.undefined, [])) ∧
    (∀ bits, handleReturnValue rt "c" bits = (.number (.int (wrapSigned 8 bits)), [])) ∧
    (∀ bits, handleReturnValue rt "s" bits = (.number (.int (wrapSigned 16 bits)), [])) ∧
    (∀ bits, handleReturnValue rt "*" bits = (.string (rt.cStringAt bits), [])) ∧
    (∀ bits, handleReturnValue rt "r*" bits = (.string (rt.cStringAt bits), [])) := by
  have hret : ∀ bits, handleReturnValue rt
      (resolveMethod rt obj (selectorOf rt args)).returnType bits = (.undefined, []) := by
    intro bits
    generalize (resolveMethod rt obj (selectorOf rt args)).returnType = t at htag
    rcases htag with h | ⟨h, h'⟩
    · simp only [List.mem_cons, List.mem_singleton, List.not_mem_nil, or_false] at h
      rcases h with h | h | h <;> subst h <;> rfl
    · simp only [supportedTableTags, List.mem_cons, List.mem_singleton, List.not_mem_nil,
        or_false, not_or] at h h'
      obtain ⟨a1, a2, a3, a4, a5, a6, a7, a8, a9, a10, a11, a12, a13, a14, a15⟩ := h
      obtain ⟨b1, b2, b3, b4⟩ := h'
      exact handleReturnValue_no_branch rt t bits a1 b1 a5 b2 a6 a7 a9 a8 a11 a10 a12 a13 a14
        b3 b4
  refine ⟨?_, ?_, hret, fun _ => rfl, fun _ => rfl, fun _ => rfl, fun _ => rfl⟩
  · rw [call_of_bindCall_ok rt Invoke obj args st hbind, hdone]
    simp only [hret]
  · rw [call_of_bindCall_ok rt Invoke obj args st hbind, hdone]
    simp only [hret, handleInoutArgs_thrown, List.append_nil]

/-- C11 (witness): the call `class`, of return tag `#`. -/
theorem call_returns_no_value_witness :
    (Call (exampleRuntime (exampleMethod [] "#")) exampleInvoke exampleObject
        [.string "class"]).returnValue = .undefined ∧
    (Call (exampleRuntime (exampleMethod [] "#")) exampleInvoke exampleObject
        [.string "class"]).thrown = [] :=
  ⟨(call_returns_no_value (exampleRuntime (exampleMethod [] "#")) exampleInvoke exampleObject
      [.string "class"] ⟨⟨5, "class", []⟩, []⟩ (fun _ => 7) 9 rfl rfl
      (Or.inl (by decide))).1,
   (call_returns_no_value (exampleRuntime (exampleMethod [] "#")) exampleInvoke exampleObject
      [.string "class"] ⟨⟨5, "class", []⟩, []⟩ (fun _ => 7) 9 rfl rfl
      (Or.inl (by decide))).2.1⟩

/-- C11 (counterexample): the return tags `c` and `s` are outside of the supported set of the
Type Encoding Table, yet the calls `isProxy` and `priority`, completed with the bits `9` in
the return slot, return the host number `9` and not `undefined`. -/
theorem call_returns_char_as_number :
    (exampleMethod [] "c").returnType ∉ supportedTableTags ∧
    (Call (exampleRuntime (exampleMethod [] "c")) exampleInvoke exampleObject
        [.string "isProxy"]).invoked = true ∧
    (Call (exampleRuntime (exampleMethod [] "c")) exampleInvoke exampleObject
        [.string "isProxy"]).returnValue = .number (.int 9) ∧
    (exampleMethod [] "s").returnType ∉ supportedTableTags ∧
    (Call (exampleRuntime (exampleMethod [] "s")) exampleInvoke exampleObject
        [.string "priority"]).returnValue = .number (.int 9) ∧
    Value.number (.int 9) ≠ Value.undefined :=
  ⟨by decide, rfl, rfl, by decide, rfl, fun h => Value.noConfusion h⟩

/-! ## C12: handles of kind class as arguments -/

/-- C12 (amended): for a host object whose property `__ptr` wraps a native handle, the
argument loop writes the pointer of the handle into a slot of tag `@` whatever the kind of
the handle, class included; into a slot of tag `#` it writes the pointer exactly when the
kind of the handle is class, and leaves the frame as it is otherwise; and for a slot of tag
`^@` it writes the pointer of the handle wrapped by the `__ptr` of the property `ref`, when
there is one, again whatever its kind, and records the index as in/out. -/
theorem wrapped_handle_binding (rt : Runtime) (method : Method) (i : Nat) (st : BindState)
    (field : InternalField) (ptr ref : Value) (p : Proxy) (hp : Unwrap ptr = some p) :
    (method.argumentType (i + 1) = "@" →
      bindArgument rt method i (.object field ptr ref) st =
        .ok ⟨st.invocation.SetArgumentAtIndex (.object (.ptr p.obj_)) (i + 1),
          st.inoutArgs⟩) ∧
    (method.argumentType (i + 1) = "#" →
      bindArgument rt method i (.object field ptr ref) st =
        .ok ⟨if p.type_ = .klass then
            st.invocation.SetArgumentAtIndex (.cls p.obj_) (i + 1)
          else st.invocation, st.inoutArgs⟩) ∧
    (∀ q : Proxy, method.argumentType (i + 1) = "^@" →
      (ref.IsUndefined || ref.IsNull) = false → Unwrap ref.getPtr = some q →
      bindArgument rt method i (.object field ptr ref) st =
        .ok ⟨st.invocation.SetArgumentAtIndex (.object (.ptr q.obj_)) (i + 1),
          setInsert intLess (i + 1) st.inoutArgs⟩) := by
  have hnn : ((Value.object field ptr ref).IsNull ||
      (Value.object field ptr ref).IsUndefined) = false := rfl
  have hstr : (Value.object field ptr ref).IsString = false := rfl
  have hobj : (Value.object field ptr ref).IsObject = true := rfl
  have hptr : (Value.object field ptr ref).getPtr = ptr := rfl
  refine ⟨fun ht => ?_, fun ht => ?_, fun q ht hr hq => ?_⟩
  · simp [bindArgument, hnn, ht, EQUAL, convertJavaScriptObjectToCorrespondingObjCType, hp]
  · by_cases hk : p.type_ = .klass
    · simp [bindArgument, hnn, ht, EQUAL, hstr, hobj, hptr, hp, hk]
    · simp [bindArgument, hnn, ht, EQUAL, hstr, hobj, hptr, hp, hk]
  · simp only [Bool.or_eq_false_iff] at hr
    simp [bindArgument, hnn, ht, EQUAL, convertJavaScriptObjectToCorrespondingObjCType,
      hr.1, hr.2, hq]

/-- C12 (witness): a handle on the class `3` passed for a parameter of tag `#`. -/
theorem wrapped_handle_binding_witness :
    bindArgument (exampleRuntime (exampleMethod ["#"] "v")) (exampleMethod ["#"] "v") 1
      (.object .empty (.object (.proxy ⟨.klass, 3⟩) .undefined .undefined) .undefined)
      ⟨⟨5, "isKindOfClass:", []⟩, []⟩ =
    .ok ⟨if (⟨.klass, 3⟩ : Proxy).type_ = .klass then
        Invocation.SetArgumentAtIndex ⟨5, "isKindOfClass:", []⟩ (.cls 3) (1 + 1)
      else ⟨5, "isKindOfClass:", []⟩, []⟩ :=
  (wrapped_handle_binding (exampleRuntime (exampleMethod ["#"] "v")) (exampleMethod ["#"] "v") 1
    ⟨⟨5, "isKindOfClass:", []⟩, []⟩ .empty
    (.object (.proxy ⟨.klass, 3⟩) .undefined .undefined) .undefined ⟨.klass, 3⟩ rfl).2.1 rfl

/-- C12 (counterexample): a host object wrapping a handle of kind class on the class `3` is
passed for a parameter of tag `@`, and, under the property `ref`, for a parameter of tag `^@`:
in both calls the pointer `3` of the class is written into the slot 2. -/
theorem class_handle_bound_in_object_slot :
    Unwrap (.object (.proxy ⟨.klass, 3⟩) .undefined .undefined) = some ⟨.klass, 3⟩ ∧
    (exampleMethod ["@"] "v").argumentType (1 + 1) = "@" ∧
    boundArgument (exampleRuntime (exampleMethod ["@"] "v")) exampleObject
      [.string "addObject:",
        .object .empty (.object (.proxy ⟨.klass, 3⟩) .undefined .undefined) .undefined] 2
      = some (.object (.ptr 3)) ∧
    (exampleMethod ["^@"] "v").argumentType (1 + 1) = "^@" ∧
    boundArgument (exampleRuntime (exampleMethod ["^@"] "v")) exampleObject
      [.string "save:",
        .object .empty .undefined
          (.object .empty (.object (.proxy ⟨.klass, 3⟩) .undefined .undefined) .undefined)] 2
      = some (.object (.ptr 3)) :=
  ⟨rfl, by decide, rfl, by decide, rfl⟩


/-! ## C13: the 64 bit return tags -/

theorem returnedInteger_q (bits : Nat) : returnedInteger "q" bits = wrapSigned 64 bits := by
  simp only [returnedInteger, if_true]
theorem returnedInteger_L (bits : Nat) : returnedInteger "L" bits = wrapUnsigned 64 bits := by
  have h : ¬ ("L" = "q") := by decide
  simp only [returnedInteger, h, if_false]
theorem returnedInteger_Q (bits : Nat) : returnedInteger "Q" bits = wrapUnsigned 64 bits := by
  have h : ¬ ("Q" = "q") := by decide
  simp only [returnedInteger, h, if_false]
theorem handleReturnValue_64 (rt : Runtime) (t : String) (bits : Nat)
    (h : t ∈ ["q", "L", "Q"]) :
    handleReturnValue rt t bits = (.number (.int (wrapSigned 32 (returnedInteger t bits))), []) := by
  simp only [List.mem_cons, List.mem_singleton, List.not_mem_nil, or_false] at h
  rcases h with h | h | h <;> subst h
  · rw [returnedInteger_q]; rfl
  · rw [returnedInteger_L]; rfl
  · rw [returnedInteger_Q]; rfl

theorem wrapSigned32_range (v : Int) :
    -2 ^ 31 ≤ wrapSigned 32 v ∧ wrapSigned 32 v < 2 ^ 31 ∧ (wrapSigned 32 v - v) % 2 ^ 32 = 0 := by
  simp only [wrapSigned]
  norm_num
  omega

theorem wrapSigned32_unique (v r : Int) (h1 : -2 ^ 31 ≤ r) (h2 : r < 2 ^ 31)
    (h3 : (r - v) % 2 ^ 32 = 0) : r = wrapSigned 32 v := by
  simp only [wrapSigned]
  norm_num at h1 h2 h3 ⊢
  omega

theorem wrapSigned32_eq_self_iff (v : Int) :
    wrapSigned 32 v = v ↔ -2 ^ 31 ≤ v ∧ v < 2 ^ 31 := by
  simp only [wrapSigned]
  norm_num
  omega

/-- C13: when a call completes and the return tag is `q`, `L` or `Q`, no host error is thrown
and the return value is the host integer `wrapSigned 32 v` for the 64 bit value `v` of the
return slot; for every `v` that integer lies in `[-2 ^ 31, 2 ^ 31)`, is congruent to `v`
modulo `2 ^ 32`, is the only such integer, and equals `v` exactly when `v` itself lies in
`[-2 ^ 31, 2 ^ 31)`. -/
theorem call_returns_truncated_integer (rt : Runtime) (Invoke : Invocation → InvokeOutcome)
    (obj : Proxy) (args : List Value) (st : BindState) (pointee : Nat → Id) (returnBits : Nat)
    (hbind : bindCall rt obj args = .ok st)
    (hdone : Invoke st.invocation = .completed pointee returnBits)
    (htag : (resolveMethod rt obj (selectorOf rt args)).returnType ∈ ["q", "L", "Q"]) :
    (Call rt Invoke obj args).returnValue =
      .number (.int (wrapSigned 32
        (returnedInteger (resolveMethod rt obj (selectorOf rt args)).returnType returnBits))) ∧
    (Call rt Invoke obj args).thrown = [] ∧
    (∀ v : Int,
      -2 ^ 31 ≤ wrapSigned 32 v ∧ wrapSigned 32 v < 2 ^ 31 ∧
      (wrapSigned 32 v - v) % 2 ^ 32 = 0 ∧
      (∀ r : Int, -2 ^ 31 ≤ r → r < 2 ^ 31 → (r - v) % 2 ^ 32 = 0 → r = wrapSigned 32 v) ∧
      (wrapSigned 32 v = v ↔ -2 ^ 31 ≤ v ∧ v < 2 ^ 31)) := by
  have hret := handleReturnValue_64 rt _ returnBits htag
  refine ⟨?_, ?_, fun v => ?_⟩
  · rw [call_of_bindCall_ok rt Invoke obj args st hbind, hdone]
    simp only [hret]
  · rw [call_of_bindCall_ok rt Invoke obj args st hbind, hdone]
    simp only [hret, handleInoutArgs_thrown, List.append_nil]
  · obtain ⟨a, b, c⟩ := wrapSigned32_range v
    exact ⟨a, b, c, fun r => wrapSigned32_unique v r, wrapSigned32_eq_self_iff v⟩

/-- C13 (witness): the call `length`, of return tag `q`, returning `2 ^ 32 + 5`. -/
theorem call_returns_truncated_integer_witness :
    (Call (exampleRuntime (exampleMethod [] "q")) (fun _ => .completed (fun _ => 0) 4294967301)
      exampleObject [.string "length"]).returnValue = .number (.int 5) :=
  (call_returns_truncated_integer (exampleRuntime (exampleMethod [] "q"))
    (fun _ => .completed (fun _ => 0) 4294967301) exampleObject [.string "length"]
    ⟨⟨5, "length", []⟩, []⟩ (fun _ => 0) 4294967301 rfl rfl (by decide)).1.trans
    (congrArg (fun x => Value.number (.int x)) (by decide))


/-! ## C14: native indices and the in/out set of a completed binding -/

/-- The write of an accepted argument does not depend on the state: every state is left with
its frame as before, or in every state the same value is written into the slot `i + 1`. -/
theorem bindArgument_accepted_uniform (rt : Runtime) (method : Method) (i : Nat) (arg : Value)
    (h : (arg.IsNull || arg.IsUndefined) = false)
    (hn : rejectedTypeName (method.argumentType (i + 1)) = none) :
    (∀ st : BindState, ∃ io, bindArgument rt method i arg st = .ok ⟨st.invocation, io⟩) ∨
    (∃ v, ∀ st : BindState, ∃ io, bindArgument rt method i arg st =
      .ok ⟨st.invocation.SetArgumentAtIndex v (i + 1), io⟩) := by
  obtain ⟨h1, h2, h3, h4, h5, h6, h7, h8, h9, h10⟩ := rejectedTypeName_eq_none _ hn
  unfold bindArgument
  simp only [h, EQUAL, beq_iff_eq, Bool.or_eq_true, h1, h2, h3, h4, h5, h6, h7, h8, h9, h10,
    if_false, or_self, Bool.false_eq_true]
  generalize method.argumentType (i + 1) = t
  clear h1 h2 h3 h4 h5 h6 h7 h8 h9 h10 hn
  by_cases c1 : t = "@" ∨ t = "^@"
  · simp only [if_pos c1]; exact Or.inr ⟨_, fun st => ⟨_, rfl⟩⟩
  simp only [if_neg c1]
  by_cases c2 : t = "#"
  · simp only [if_pos c2]
    by_cases c3 : arg.IsString = true
    · simp only [if_pos c3]; exact Or.inr ⟨_, fun st => ⟨_, rfl⟩⟩
    simp only [if_neg c3]
    by_cases c4 : arg.IsObject = true
    · simp only [if_pos c4]
      cases Unwrap arg.getPtr with
      | none => exact Or.inl (fun st => ⟨_, rfl⟩)
      | some p =>
        by_cases c5 : p.type_ = ProxyType.klass
        · simp only [c5, if_true]; exact Or.inr ⟨_, fun st => ⟨_, rfl⟩⟩
        · simp only [c5, if_false]; exact Or.inl (fun st => ⟨_, rfl⟩)
    · simp only [if_neg c4]; exact Or.inl (fun st => ⟨_, rfl⟩)
  simp only [if_neg c2]
  clear c1 c2
  by_cases c : t = "i"
  · simp only [if_pos c]; exact Or.inr ⟨_, fun st => ⟨_, rfl⟩⟩
  simp only [if_neg c]; clear c
  by_cases c : t = "q"
  · simp only [if_pos c]; exact Or.inr ⟨_, fun st => ⟨_, rfl⟩⟩
  simp only [if_neg c]; clear c
  by_cases c : t = "I"
  · simp only [if_pos c]; exact Or.inr ⟨_, fun st => ⟨_, rfl⟩⟩
  simp only [if_neg c]; clear c
  by_cases c : t = "L"
  · simp only [if_pos c]; exact Or.inr ⟨_, fun st => ⟨_, rfl⟩⟩
  simp only [if_neg c]; clear c
  by_cases c : t = "Q"
  · simp only [if_pos c]; exact Or.inr ⟨_, fun st => ⟨_, rfl⟩⟩
  simp only [if_neg c]; clear c
  by_cases c : t = "f"
  · simp only [if_pos c]; exact Or.inr ⟨_, fun st => ⟨_, rfl⟩⟩
  simp only [if_neg c]; clear c
  by_cases c : t = "d"
  · simp only [if_pos c]; exact Or.inr ⟨_, fun st => ⟨_, rfl⟩⟩
  simp only [if_neg c]; clear c
  by_cases c : t = "B"
  · simp only [if_pos c]; exact Or.inr ⟨_, fun st => ⟨_, rfl⟩⟩
  simp only [if_neg c]; clear c
  by_cases c : t = ":"
  · simp only [if_pos c]; exact Or.inr ⟨_, fun st => ⟨_, rfl⟩⟩
  simp only [if_neg c]; exact Or.inl (fun st => ⟨_, rfl⟩)


/-- A turn of the argument loop that does not stop writes the slot `i + 1` at most, and what
it writes there is what it writes on an empty frame. -/
theorem bindArgument_slots (rt : Runtime) (method : Method) (i : Nat) (arg : Value)
    (st st1 : BindState) (h : bindArgument rt method i arg st = .ok st1) :
    (∀ q, q ≠ i + 1 → st1.invocation.slot q = st.invocation.slot q) ∧
    (st.invocation.slot (i + 1) = none →
      st1.invocation.slot (i + 1) = writtenSlot rt method i arg) := by
  by_cases hnull : (arg.IsNull || arg.IsUndefined) = true
  · rw [bindArgument_nullish rt method i arg st hnull] at h
    simp only [Except.ok.injEq] at h
    subst h
    refine ⟨fun q hq => ?_, fun _ => ?_⟩
    · simp only [slot_SetArgumentAtIndex, if_neg (Ne.symm hq)]
    · simp only [writtenSlot, bindArgument_nullish rt method i arg _ hnull,
        slot_SetArgumentAtIndex, if_true]
  · have hnull' : (arg.IsNull || arg.IsUndefined) = false := by simpa using hnull
    cases hr : rejectedTypeName (method.argumentType (i + 1)) with
    | some n =>
      rw [bindArgument_rejected rt method i arg st hnull' n hr] at h
      simp at h
    | none =>
      rcases bindArgument_accepted_uniform rt method i arg hnull' hr with hu | ⟨v, hu⟩
      · obtain ⟨io, e⟩ := hu st
        obtain ⟨io0, e0⟩ := hu ⟨⟨0, "", []⟩, []⟩
        rw [e] at h
        simp only [Except.ok.injEq] at h
        subst h
        refine ⟨fun q _ => rfl, fun hs => ?_⟩
        simp only [writtenSlot, e0, hs]
        rfl
      · obtain ⟨io, e⟩ := hu st
        obtain ⟨io0, e0⟩ := hu ⟨⟨0, "", []⟩, []⟩
        rw [e] at h
        simp only [Except.ok.injEq] at h
        subst h
        refine ⟨fun q hq => ?_, fun _ => ?_⟩
        · simp only [slot_SetArgumentAtIndex, if_neg (Ne.symm hq)]
        · simp only [writtenSlot, e0, slot_SetArgumentAtIndex, if_true]

/-- A completed binding from position `i` on, over `rest`, leaves in the slot of each position
what the turn of that position writes, and writes no slot above. -/
theorem bindArguments_slots (rt : Runtime) (method : Method) (rest : List Value) :
    ∀ (i : Nat) (st st1 : BindState), bindArguments rt method i rest st = .ok st1 →
      (∀ q, i < q → st.invocation.slot q = none) →
      (∀ k, i ≤ k → k < i + rest.length →
        st1.invocation.slot (k + 1) = writtenSlot rt method k (rest.getD (k - i) .undefined)) ∧
      (∀ q, i + rest.length < q → st1.invocation.slot q = none) := by
  induction rest with
  | nil =>
    intro i st st1 h hfree
    simp only [bindArguments, Except.ok.injEq] at h
    subst h
    refine ⟨fun k h1 h2 => ?_, fun q hq => hfree q (by simpa using hq)⟩
    simp at h2; omega
  | cons arg rest ih =>
    intro i st st1 h hfree
    simp only [bindArguments] at h
    cases hb : bindArgument rt method i arg st with
    | error m => rw [hb] at h; simp at h
    | ok st2 =>
      rw [hb] at h
      obtain ⟨hother, hhere⟩ := bindArgument_slots rt method i arg st st2 hb
      have hfree2 : ∀ q, i + 1 < q → st2.invocation.slot q = none := by
        intro q hq
        rw [hother q (by omega)]
        exact hfree q (by omega)
      obtain ⟨ih1, ih2⟩ := ih (i + 1) st2 st1 h hfree2
      refine ⟨fun k hk1 hk2 => ?_, fun q hq => ?_⟩
      · rcases Nat.eq_or_lt_of_le hk1 with e | e
        · subst e
          simp only [Nat.sub_self, List.getD_cons_zero]
          rw [bindArguments_slot_below rt method rest (i + 1) st2 st1 h (i + 1) (le_refl _)]
          exact hhere (hfree (i + 1) (by omega))
        · have e2 : k - i = (k - (i + 1)) + 1 := by omega
          rw [e2, List.getD_cons_succ]
          exact ih1 k e (by simp only [List.length_cons] at hk2; omega)
      · exact ih2 q (by simp only [List.length_cons] at hq; omega)

theorem writtenSlot_inout (rt : Runtime) (method : Method) (i : Nat) (arg : Value)
    (h : (arg.IsNull || arg.IsUndefined) = false)
    (ht : method.argumentType (i + 1) = "^@") :
    writtenSlot rt method i arg =
      some (.object (convertJavaScriptObjectToCorrespondingObjCType rt arg "^@")) := by
  simp [writtenSlot, bindArgument, h, ht, EQUAL, slot_SetArgumentAtIndex]

theorem writtenSlot_nullish (rt : Runtime) (method : Method) (i : Nat) (arg : Value)
    (h : (arg.IsNull || arg.IsUndefined) = true) :
    writtenSlot rt method i arg = some .nilArgument := by
  simp only [writtenSlot, bindArgument_nullish rt method i arg _ h, slot_SetArgumentAtIndex,
    if_true]

theorem writtenSlot_accepted (rt : Runtime) (method : Method) (i : Nat) (arg : Value)
    (h : (arg.IsNull || arg.IsUndefined) = false)
    (ht : method.argumentType (i + 1) ∈ acceptedTags)
    (hc : method.argumentType (i + 1) ≠ "#") :
    ∃ v, writtenSlot rt method i arg = some v := by
  obtain ⟨v, io, e⟩ := bindArgument_writes_slot rt method i arg ⟨⟨0, "", []⟩, []⟩ h ht hc
  exact ⟨v, by simp only [writtenSlot, e, slot_SetArgumentAtIndex, if_true]⟩

/-- The write of the turn of the loop for an argument that is neither null nor undefined, tag
by tag. -/
theorem writtenSlot_values (rt : Runtime) (method : Method) (i : Nat) (arg : Value)
    (h : (arg.IsNull || arg.IsUndefined) = false) :
    (method.argumentType (i + 1) = "@" → writtenSlot rt method i arg =
      some (.object (convertJavaScriptObjectToCorrespondingObjCType rt arg "@"))) ∧
    (method.argumentType (i + 1) = "^@" → writtenSlot rt method i arg =
      some (.object (convertJavaScriptObjectToCorrespondingObjCType rt arg "^@"))) ∧
    (method.argumentType (i + 1) = ":" → writtenSlot rt method i arg =
      some (.sel (rt.ValueToChar arg))) ∧
    (method.argumentType (i + 1) = "i" → writtenSlot rt method i arg =
      some (.int (ToInt32 (ToNumber rt arg)))) ∧
    (method.argumentType (i + 1) = "q" → writtenSlot rt method i arg =
      some (.longLong (castLongLong rt (ToNumber rt arg)))) ∧
    (method.argumentType (i + 1) = "I" → writtenSlot rt method i arg =
      some (.unsignedInt (wrapUnsigned 32 (ToInt32 (ToNumber rt arg))))) ∧
    (method.argumentType (i + 1) = "L" → writtenSlot rt method i arg =
      some (.unsignedLong (wrapUnsigned 64 (ToInt32 (ToNumber rt arg))))) ∧
    (method.argumentType (i + 1) = "Q" → writtenSlot rt method i arg =
      some (.unsignedLongLong (wrapUnsigned 64 (ToInt32 (ToNumber rt arg))))) ∧
    (method.argumentType (i + 1) = "f" → writtenSlot rt method i arg =
      some (.float (ToNumber rt arg))) ∧
    (method.argumentType (i + 1) = "d" → writtenSlot rt method i arg =
      some (.double (ToNumber rt arg))) ∧
    (method.argumentType (i + 1) = "B" → writtenSlot rt method i arg =
      some (.bool arg.ToBoolean)) ∧
    (method.argumentType (i + 1) = "#" → writtenSlot rt method i arg =
      if arg.IsString then some (.cls (rt.objc_getClass (rt.ValueToChar arg)))
      else if arg.IsObject then
        match Unwrap arg.getPtr with
        | some passedClassProxy =>
          if passedClassProxy.type_ = .klass then some (.cls passedClassProxy.obj_) else none
        | none => none
      else none) := by
  refine ⟨fun ht => ?_, fun ht => ?_, fun ht => ?_, fun ht => ?_, fun ht => ?_, fun ht => ?_,
    fun ht => ?_, fun ht => ?_, fun ht => ?_, fun ht => ?_, fun ht => ?_, fun ht => ?_⟩
  case refine_12 =>
    by_cases c3 : arg.IsString = true
    · simp [writtenSlot, bindArgument, h, ht, EQUAL, slot_SetArgumentAtIndex, c3]
    · by_cases c4 : arg.IsObject = true
      · cases hu : Unwrap arg.getPtr with
        | none =>
          simp [writtenSlot, bindArgument, h, ht, EQUAL, c3, c4, hu]
          rfl
        | some p =>
          by_cases c5 : p.type_ = ProxyType.klass
          · simp [writtenSlot, bindArgument, h, ht, EQUAL, slot_SetArgumentAtIndex, c3, c4,
              hu, c5]
          · simp [writtenSlot, bindArgument, h, ht, EQUAL, c3, c4, hu, c5]
            rfl
      · simp [writtenSlot, bindArgument, h, ht, EQUAL, c3, c4]
        rfl
  all_goals simp [writtenSlot, bindArgument, h, ht, EQUAL, slot_SetArgumentAtIndex]

/-- For the tag `#` the turn of the loop writes the slot exactly for a string and for a value
whose `__ptr` wraps a handle of kind class. -/
theorem writtenSlot_class_iff (rt : Runtime) (method : Method) (i : Nat) (arg : Value)
    (h : (arg.IsNull || arg.IsUndefined) = false) (ht : method.argumentType (i + 1) = "#") :
    (∃ v, writtenSlot rt method i arg = some v) ↔
      (arg.IsString = true ∨
        (arg.IsObject = true ∧ ∃ p, Unwrap arg.getPtr = some p ∧ p.type_ = .klass)) := by
  rw [(writtenSlot_values rt method i arg h).2.2.2.2.2.2.2.2.2.2.2 ht]
  by_cases c3 : arg.IsString = true
  · rw [if_pos c3]
    exact ⟨fun _ => Or.inl c3, fun _ => ⟨_, rfl⟩⟩
  · rw [if_neg c3]
    by_cases c4 : arg.IsObject = true
    · rw [if_pos c4]
      cases hu : Unwrap arg.getPtr with
      | none =>
        constructor
        · rintro ⟨v, hv⟩; simp at hv
        · rintro (hs | ⟨_, p, hp, _⟩)
          · exact absurd hs c3
          · simp at hp
      | some p =>
        by_cases c5 : p.type_ = ProxyType.klass
        · simp only [c5, if_true]
          exact ⟨fun _ => Or.inr ⟨c4, p, rfl, c5⟩, fun _ => ⟨_, rfl⟩⟩
        · simp only [c5, if_false]
          constructor
          · rintro ⟨v, hv⟩; simp at hv
          · rintro (hs | ⟨_, p1, hp1, hk1⟩)
            · exact absurd hs c3
            · simp only [Option.some.injEq] at hp1
              subst hp1
              exact absurd hk1 c5
    · rw [if_neg c4]
      constructor
      · rintro ⟨v, hv⟩; simp at hv
      · rintro (hs | ⟨ho, _⟩)
        · exact absurd hs c3
        · exact absurd ho c4

/-- C14 (amended): when the argument binding of a call over `n` host values completes, the
slot `i + 1` of the frame holds, for every position `1 ≤ i < n`, what the turn of the loop for
the host argument `i` writes, and no slot below 2 or above `n` is written: a host argument is
bound at the native index `i + 1` or not at all. It is bound there, with a null pointer, when
it is null or undefined, and with its conversion when it is neither and its tag is one of `@`,
`^@`, `:`, `i`, `q`, `I`, `Q`, `L`, `f`, `d`, `B`, the value bound being given tag by tag.
For the tag `#` it is bound exactly when it is a string, with the class of that name, or when
its `__ptr` wraps a handle of kind class, with the pointer of the handle; any other value
leaves the slot unwritten. The recorded in/out indices are exactly
the `i + 1` for the positions `1 ≤ i < n` whose argument is neither null nor undefined and
whose tag is `^@`; so every recorded index `k` has `2 ≤ k ≤ n`, and `k - 1` is a position of
the call, whose argument is not null and is the one converted into the slot `k`. -/
theorem binding_index_map (rt : Runtime) (obj : Proxy) (args : List Value) (st : BindState)
    (hbind : bindCall rt obj args = .ok st) :
    (∀ i, 1 ≤ i → i < args.length →
      st.invocation.slot (i + 1) =
        writtenSlot rt (resolveMethod rt obj (selectorOf rt args)) i (args.getD i .undefined)) ∧
    (∀ q, q < 2 ∨ args.length < q → st.invocation.slot q = none) ∧
    (∀ i, ((args.getD i .undefined).IsNull || (args.getD i .undefined).IsUndefined) = true →
      writtenSlot rt (resolveMethod rt obj (selectorOf rt args)) i (args.getD i .undefined) =
        some .nilArgument) ∧
    (∀ i, ((args.getD i .undefined).IsNull || (args.getD i .undefined).IsUndefined) = false →
      (resolveMethod rt obj (selectorOf rt args)).argumentType (i + 1) ∈ acceptedTags →
      (resolveMethod rt obj (selectorOf rt args)).argumentType (i + 1) ≠ "#" →
      ∃ v, writtenSlot rt (resolveMethod rt obj (selectorOf rt args)) i
        (args.getD i .undefined) = some v) ∧
    (∀ k, k ∈ st.inoutArgs ↔ ∃ i, k = i + 1 ∧ 1 ≤ i ∧ i < args.length ∧
      ((args.getD i .undefined).IsNull || (args.getD i .undefined).IsUndefined) = false ∧
      (resolveMethod rt obj (selectorOf rt args)).argumentType (i + 1) = "^@") ∧
    (∀ k, k ∈ st.inoutArgs → 2 ≤ k ∧ k ≤ args.length ∧ k - 1 < args.length ∧
      ((args.getD (k - 1) .undefined).IsNull ||
        (args.getD (k - 1) .undefined).IsUndefined) = false ∧
      st.invocation.slot k = some (.object
        (convertJavaScriptObjectToCorrespondingObjCType rt (args.getD (k - 1) .undefined)
          "^@"))) ∧
    (∀ i, 1 ≤ i → i < args.length →
      ((args.getD i .undefined).IsNull || (args.getD i .undefined).IsUndefined) = true →
      st.invocation.slot (i + 1) = some .nilArgument) ∧
    (∀ i, 1 ≤ i → i < args.length →
      ((args.getD i .undefined).IsNull || (args.getD i .undefined).IsUndefined) = false →
      ((resolveMethod rt obj (selectorOf rt args)).argumentType (i + 1) = "@" →
        st.invocation.slot (i + 1) = some (.object
          (convertJavaScriptObjectToCorrespondingObjCType rt (args.getD i .undefined) "@"))) ∧
      ((resolveMethod rt obj (selectorOf rt args)).argumentType (i + 1) = "^@" →
        st.invocation.slot (i + 1) = some (.object
          (convertJavaScriptObjectToCorrespondingObjCType rt (args.getD i .undefined) "^@"))) ∧
      ((resolveMethod rt obj (selectorOf rt args)).argumentType (i + 1) = ":" →
        st.invocation.slot (i + 1) = some (.sel (rt.ValueToChar (args.getD i .undefined)))) ∧
      ((resolveMethod rt obj (selectorOf rt args)).argumentType (i + 1) = "i" →
        st.invocation.slot (i + 1) =
          some (.int (ToInt32 (ToNumber rt (args.getD i .undefined))))) ∧
      ((resolveMethod rt obj (selectorOf rt args)).argumentType (i + 1) = "q" →
        st.invocation.slot (i + 1) =
          some (.longLong (castLongLong rt (ToNumber rt (args.getD i .undefined))))) ∧
      ((resolveMethod rt obj (selectorOf rt args)).argumentType (i + 1) = "I" →
        st.invocation.slot (i + 1) = some (.unsignedInt
          (wrapUnsigned 32 (ToInt32 (ToNumber rt (args.getD i .undefined)))))) ∧
      ((resolveMethod rt obj (selectorOf rt args)).argumentType (i + 1) = "L" →
        st.invocation.slot (i + 1) = some (.unsignedLong
          (wrapUnsigned 64 (ToInt32 (ToNumber rt (args.getD i .undefined)))))) ∧
      ((resolveMethod rt obj (selectorOf rt args)).argumentType (i + 1) = "Q" →
        st.invocation.slot (i + 1) = some (.unsignedLongLong
          (wrapUnsigned 64 (ToInt32 (ToNumber rt (args.getD i .undefined)))))) ∧
      ((resolveMethod rt obj (selectorOf rt args)).argumentType (i + 1) = "f" →
        st.invocation.slot (i + 1) = some (.float (ToNumber rt (args.getD i .undefined)))) ∧
      ((resolveMethod rt obj (selectorOf rt args)).argumentType (i + 1) = "d" →
        st.invocation.slot (i + 1) = some (.double (ToNumber rt (args.getD i .undefined)))) ∧
      ((resolveMethod rt obj (selectorOf rt args)).argumentType (i + 1) = "B" →
        st.invocation.slot (i + 1) = some (.bool (args.getD i .undefined).ToBoolean)) ∧
      ((resolveMethod rt obj (selectorOf rt args)).argumentType (i + 1) = "#" →
        st.invocation.slot (i + 1) =
          (if (args.getD i .undefined).IsString then
            some (.cls (rt.objc_getClass (rt.ValueToChar (args.getD i .undefined))))
          else if (args.getD i .undefined).IsObject then
            match Unwrap (args.getD i .undefined).getPtr with
            | some passedClassProxy =>
              if passedClassProxy.type_ = .klass then some (.cls passedClassProxy.obj_)
              else none
            | none => none
          else none) ∧
        ((∃ v, st.invocation.slot (i + 1) = some v) ↔
          ((args.getD i .undefined).IsString = true ∨
            ((args.getD i .undefined).IsObject = true ∧
              ∃ p, Unwrap (args.getD i .undefined).getPtr = some p ∧ p.type_ = .klass))))) := by
  have hb : bindArguments rt (resolveMethod rt obj (selectorOf rt args)) 1 (args.drop 1)
      (initialState rt obj args) = .ok st := hbind
  obtain ⟨hs1, hs2⟩ := bindArguments_slots rt _ (args.drop 1) 1 _ st hb (fun q _ => rfl)
  have hslot : ∀ i, 1 ≤ i → i < args.length →
      st.invocation.slot (i + 1) =
        writtenSlot rt (resolveMethod rt obj (selectorOf rt args)) i
          (args.getD i .undefined) := by
    intro i h1 h2
    have := hs1 i h1 (by simp only [List.length_drop]; omega)
    rw [getD_drop_one args i 1 h1] at this
    exact this
  refine ⟨hslot, ?_, fun i h => writtenSlot_nullish rt _ i _ h,
    fun i h ht hc => writtenSlot_accepted rt _ i _ h ht hc,
    bindCall_inoutArgs rt obj args st hbind, ?_,
    fun i h1 h2 h => by rw [hslot i h1 h2]; exact writtenSlot_nullish rt _ i _ h,
    fun i h1 h2 h => ?_⟩
  rotate_left 2
  · rw [hslot i h1 h2]
    obtain ⟨v1, v2, v3, v4, v5, v6, v7, v8, v9, v10, v11, v12⟩ :=
      writtenSlot_values rt (resolveMethod rt obj (selectorOf rt args)) i
        (args.getD i .undefined) h
    exact ⟨v1, v2, v3, v4, v5, v6, v7, v8, v9, v10, v11,
      fun ht => ⟨v12 ht, writtenSlot_class_iff rt _ i _ h ht⟩⟩
  · intro q hq
    rcases hq with hq | hq
    · rw [bindArguments_slot_below rt _ (args.drop 1) 1 _ st hb q (by omega)]
      rfl
    · by_cases hlen : args.length = 0
      · have e : args = [] := List.length_eq_zero.1 hlen
        subst e
        simp only [List.drop_nil, bindArguments, Except.ok.injEq] at hb
        rw [← hb]
        rfl
      · exact hs2 q (by simp only [List.length_drop]; omega)
  · intro k hk
    obtain ⟨i, rfl, h1, h2, h3, h4⟩ := (bindCall_inoutArgs rt obj args st hbind k).1 hk
    refine ⟨by omega, by omega, by simpa using h2, by simpa using h3, ?_⟩
    rw [hslot i h1 h2, writtenSlot_inout rt _ i _ h3 h4]
    simp


/-- C14 (witness): the call `save:` with an empty host object for a parameter of tag `^@`. -/
theorem binding_index_map_witness :
    2 ≤ 2 ∧ 2 ≤ [Value.string "save:", Value.object .empty .undefined .undefined].length ∧
    2 - 1 < [Value.string "save:", Value.object .empty .undefined .undefined].length ∧
    ((([Value.string "save:", Value.object .empty .undefined .undefined].getD (2 - 1)
        .undefined).IsNull ||
      ([Value.string "save:", Value.object .empty .undefined .undefined].getD (2 - 1)
        .undefined).IsUndefined) = false) ∧
    Invocation.slot ⟨5, "save:", [(2, .object .mallocCell)]⟩ 2 =
      some (.object (convertJavaScriptObjectToCorrespondingObjCType
        (exampleRuntime (exampleMethod ["^@"] "v"))
        ([Value.string "save:", Value.object .empty .undefined .undefined].getD (2 - 1)
          .undefined) "^@")) :=
  (binding_index_map (exampleRuntime (exampleMethod ["^@"] "v")) exampleObject
    [.string "save:", .object .empty .undefined .undefined]
    ⟨⟨5, "save:", [(2, .object .mallocCell)]⟩, [2]⟩ rfl).2.2.2.2.2.1 2 (by decide)

/-- C14 (counterexample): the call `isKindOfClass:` with a host object wrapping a handle of
kind instance for a parameter of tag `#`: the binding completes, yet the host argument 1 is
not bound, no slot of the frame is written and the slot 2 is empty. -/
theorem instance_handle_not_bound_in_class_slot :
    (exampleMethod ["#"] "v").argumentType (1 + 1) = "#" ∧
    boundSlots (exampleRuntime (exampleMethod ["#"] "v")) exampleObject
      [.string "isKindOfClass:",
        .object .empty (.object (.proxy ⟨.instance_, 5⟩) .undefined .undefined) .undefined]
      = some [] ∧
    boundArgument (exampleRuntime (exampleMethod ["#"] "v")) exampleObject
      [.string "isKindOfClass:",
        .object .empty (.object (.proxy ⟨.instance_, 5⟩) .undefined .undefined) .undefined] 2
      = none ∧
    (Call (exampleRuntime (exampleMethod ["#"] "v")) exampleInvoke exampleObject
      [.string "isKindOfClass:",
        .object .empty (.object (.proxy ⟨.instance_, 5⟩) .undefined .undefined)
          .undefined]).invoked = true :=
  ⟨by decide, by decide, rfl, rfl⟩

end ObjC
